import Mathlib

/-!
Shallow embedding of the synthetic-data generator (`data_generation.py`) and of the
supervisor/agent graph (`studio_app.py`) of the churn-demo repository, together with
proofs settling the frozen claims about them.

Modelling conventions:

* Dates are integers counting days from 2022-01-01 (the generator's `start_date`).
  `datetime(2024, 7, 1)` is day 912 and `datetime(2024, 10, 1)` is day 1004
  (2022 and 2023 have 365 days, 2024 is a leap year: 182 days to July 1,
  92 more to October 1).
* Python's global Mersenne-Twister stream (`random.seed(42)` / `np.random.seed(42)`)
  is abstracted into oracle structures of raw entropy streams, one field per call
  site, indexed by loop position.  A discrete draw consumes a `Nat` and is reduced
  modulo the population size (mirroring `random._randbelow`), so every value a real
  run can produce is produced by some oracle, and all produced values lie in the
  population.  A continuous draw (`random.uniform`) consumes a rational `r`
  standing for the raw `random()` output; theorems that need it assume `0 ≤ r < 1`.
* `customer_id` strings `CUST_%06d` (and likewise `EVT_%08d`, `TKT_%08d`,
  `CHN_%08d`) are injective images of their running counters, so identifiers are
  modelled by the counter value itself; equality and uniqueness are preserved.
* Weighted categorical draws (`np.random.choice(values, p=weights)`) keep their
  weight vectors from the source, but the weights shape only the distribution; at
  every call site all weights are positive, so the support is the whole value list,
  which is what the entropy model captures.
-/

/-- Python `int(x)` applied to a float: truncation toward zero. -/
def pyInt (q : ℚ) : Int := if 0 ≤ q then ⌊q⌋ else -⌊-q⌋

/-- Python `random.randint(a, b)`: a uniform integer in `[a, b]`.  The entropy `ent`
is reduced modulo the population size `b - a + 1`.  Python raises `ValueError` when
`b < a`; every call site below establishes `a ≤ b`, where this model is exact. -/
def pyRandint (ent : Nat) (a b : Int) : Int := a + Int.ofNat (ent % (b - a + 1).toNat)

/-- Python `random.choice(seq)`: `seq[randbelow(len(seq))]`.  On the empty list
(where Python raises `IndexError`) the default `d` is returned; every call site
below passes a non-empty literal list. -/
def pyChoice (ent : Nat) (l : List α) (d : α) : α := l.getD (ent % l.length) d

/-- Python `np.random.choice(values, p=weights)`.  The weight vector `w` only
shapes the distribution; at every call site in the source all weights are positive,
so any element of `values` can be drawn, which the entropy model captures. -/
def pyWeightedChoice (ent : Nat) (l : List α) (_w : List ℚ) (d : α) : α :=
  l.getD (ent % l.length) d

/-- Python `random.uniform(a, b) = a + (b - a) * random()`, with `r` the raw
`random()` output (a rational standing for the float in `[0, 1)`). -/
def pyUniform (r : ℚ) (a b : ℚ) : ℚ := a + (b - a) * r

/-- Python `random.sample(population, k)`: `k` draws without replacement, each
draw picking the position `ent i % remaining` among the remaining elements.
Python raises `ValueError` when `k` exceeds the population size; this model then
returns only the available elements, and every call site below clamps `k` (the
subject of claim C8). -/
def pySample (ent : Nat → Nat) : List α → Nat → List α
  | _, 0 => []
  | [], _ + 1 => []
  | a :: l, k + 1 =>
    let j := ent k % (a :: l).length
    (a :: l).get ⟨j, Nat.mod_lt _ (Nat.succ_pos _)⟩ ::
      pySample ent ((a :: l).eraseIdx j) k

/-- Python `round(x, 2)`.  (CPython rounds ties to even; the tie case is
immaterial to every claim, no theorem below depends on tie behaviour.) -/
def round2 (q : ℚ) : ℚ := (⌊q * 100 + 1 / 2⌋ : ℚ) / 100

/-! ### Data model (`data_generation.py`) -/

/-- The four plan tiers (`plan_types` in `generate_customers_data`). -/
inductive PlanType where
  | starter | professional | enterprise | premium
  deriving DecidableEq, Repr

/-- The four company sizes (`company_sizes`). -/
inductive CompanySize where
  | small | medium | large | enterprise
  deriving DecidableEq, Repr

/-- Customer status: `'active'` at generation, `'churned'` after the churn update. -/
inductive CustStatus where
  | active | churned
  deriving DecidableEq, Repr

/-- A row of the `CUSTOMERS` record set as built by `generate_customers_data`. -/
structure Customer where
  customer_id : Nat
  signup_date : Int
  plan_type : PlanType
  company_size : CompanySize
  industry : String
  status : CustStatus
  monthly_revenue : ℚ
  deriving DecidableEq, Repr

/-- The nine usage features (`features` in `generate_usage_events`). -/
inductive Feature where
  | dashboard_view | report_generation | data_export | user_management
  | api_calls | integrations | analytics | collaboration | mobile_app
  deriving DecidableEq, Repr

/-- A row of the `USAGE_EVENTS` record set. -/
structure UsageEvent where
  event_id : Nat
  customer_id : Nat
  event_date : Int
  feature_used : Feature
  session_duration_minutes : Int
  actions_count : Int
  deriving DecidableEq, Repr

/-- The nine support-ticket categories. -/
inductive Category where
  | billing | technical_issue | feature_request | account_access
  | integration_help | data_export | performance | training | bug_report
  deriving DecidableEq, Repr

/-- Ticket priorities (`priorities`). -/
inductive Priority where
  | low | medium | high | urgent
  deriving DecidableEq, Repr

/-- Ticket statuses (`statuses`). -/
inductive TicketStatus where
  | resolved | closed | pending
  deriving DecidableEq, Repr

/-- A row of the `SUPPORT_TICKETS` record set.  `resolution_time_hours` and
`satisfaction_score` are `None` (here `none`) for pending tickets. -/
structure SupportTicket where
  ticket_id : Nat
  customer_id : Nat
  created_date : Int
  category : Category
  priority : Priority
  status : TicketStatus
  resolution_time_hours : Option Int
  satisfaction_score : Option Nat
  ticket_text : String
  deriving DecidableEq, Repr

/-- A row of the `CHURN_EVENTS` record set. -/
structure ChurnEvent where
  churn_id : Nat
  customer_id : Nat
  churn_date : Int
  churn_reason : String
  days_since_signup : Int
  final_plan_type : PlanType
  final_monthly_revenue : ℚ
  deriving DecidableEq, Repr

/-! ### Fixed dates -/

/-- `datetime(2022, 1, 1)`, the start of the signup window (day 0). -/
def startDate : Int := 0

/-- `datetime(2024, 10, 1)`, the end of the signup window and global end date. -/
def globalEndDate : Int := 1004

/-- `datetime(2024, 7, 1)`, the `recent_cutoff` of `generate_churn_events`. -/
def recentCutoff : Int := 912

/-! ### `generate_customers_data` -/

/-- Entropy for one run of `generate_customers_data`, indexed by customer number. -/
structure CustomersOracle where
  signupEnt : Nat → Nat
  sizeEnt : Nat → Nat
  planEnt : Nat → Nat
  industryEnt : Nat → Nat
  revR : Nat → ℚ

/-- The `plan_types` list. -/
def plan_types : List PlanType := [.starter, .professional, .enterprise, .premium]

/-- The base `plan_weights` (only the conditional `plan_weights_adj` are used). -/
def plan_weights : List ℚ := [0.4, 0.35, 0.15, 0.1]

/-- The `company_sizes` list. -/
def company_sizes : List CompanySize := [.small, .medium, .large, .enterprise]

/-- The `size_weights` vector. -/
def size_weights : List ℚ := [0.5, 0.3, 0.15, 0.05]

/-- The `industries` list. -/
def industries : List String :=
  ["technology", "healthcare", "finance", "retail", "manufacturing",
   "education", "consulting", "media", "real_estate", "non_profit"]

/-- The `revenue_base` table, indexed by plan type then company size. -/
def revenue_base (p : PlanType) (s : CompanySize) : ℚ :=
  match p, s with
  | .starter, .small => 29 | .starter, .medium => 49
  | .starter, .large => 99 | .starter, .enterprise => 199
  | .professional, .small => 99 | .professional, .medium => 199
  | .professional, .large => 399 | .professional, .enterprise => 799
  | .enterprise, .small => 299 | .enterprise, .medium => 599
  | .enterprise, .large => 1199 | .enterprise, .enterprise => 2399
  | .premium, .small => 599 | .premium, .medium => 1199
  | .premium, .large => 2399 | .premium, .enterprise => 4799

/-- The `plan_weights_adj` if/elif ladder conditioning plan weights on size. -/
def plan_weights_adj (s : CompanySize) : List ℚ :=
  match s with
  | .enterprise => [0.1, 0.2, 0.4, 0.3]
  | .large => [0.2, 0.4, 0.3, 0.1]
  | .medium => [0.3, 0.4, 0.2, 0.1]
  | .small => [0.6, 0.3, 0.08, 0.02]

/-- `generate_customers_data(num_customers)`: one customer per index `i`, with
`customer_id = CUST_{i+1:06d}` (modelled by the number `i + 1`), a uniform signup
date in the window, size-conditioned plan type, and jittered revenue. -/
def generate_customers_data (O : CustomersOracle) (num_customers : Nat) : List Customer :=
  (List.range num_customers).map fun i =>
    let days_range := globalEndDate - startDate
    let signup_date := startDate + pyRandint (O.signupEnt i) 0 days_range
    let company_size := pyWeightedChoice (O.sizeEnt i) company_sizes size_weights .small
    let plan_type :=
      pyWeightedChoice (O.planEnt i) plan_types (plan_weights_adj company_size) .starter
    let industry := pyChoice (O.industryEnt i) industries "technology"
    let base_revenue := revenue_base plan_type company_size
    let monthly_revenue := round2 (base_revenue * pyUniform (O.revR i) 0.8 1.2)
    { customer_id := i + 1
      signup_date := signup_date
      plan_type := plan_type
      company_size := company_size
      industry := industry
      status := .active
      monthly_revenue := monthly_revenue }

/-! ### `generate_usage_events` -/

/-- Entropy for `generate_usage_events`, indexed by customer position (and event
number for the inner loop). -/
structure UsageOracle where
  cntR : Nat → ℚ
  dayEnt : Nat → Nat → Nat
  featEnt : Nat → Nat → Nat
  durR : Nat → Nat → ℚ
  actEnt : Nat → Nat → Nat

/-- The `features` list. -/
def features : List Feature :=
  [.dashboard_view, .report_generation, .data_export, .user_management,
   .api_calls, .integrations, .analytics, .collaboration, .mobile_app]

/-- The `plan_features` table: features unlocked by each plan tier. -/
def plan_features (p : PlanType) : List Feature :=
  match p with
  | .starter => [.dashboard_view, .report_generation, .mobile_app]
  | .professional => [.dashboard_view, .report_generation, .data_export, .analytics, .mobile_app]
  | .enterprise => [.dashboard_view, .report_generation, .data_export, .user_management,
      .api_calls, .integrations, .analytics, .collaboration]
  | .premium => features

/-- The `plan_multiplier` table scaling event counts. -/
def plan_multiplier (p : PlanType) : ℚ :=
  match p with
  | .starter => 0.7 | .professional => 1.0 | .enterprise => 1.5 | .premium => 2.0

/-- The `base_duration` table (minutes per feature). -/
def base_duration (f : Feature) : ℚ :=
  match f with
  | .dashboard_view => 15 | .report_generation => 45 | .data_export => 30
  | .user_management => 20 | .api_calls => 5 | .integrations => 60
  | .analytics => 90 | .collaboration => 35 | .mobile_app => 10

/-- Inner event loop of `generate_usage_events` for one customer `c` at position
`i`: one event per element of `js`, threading the global `event_counter`. -/
def usageInner (O : UsageOracle) (i : Nat) (c : Customer) (days_active : Int) :
    List Nat → Nat → List UsageEvent
  | [], _ => []
  | j :: rest, ctr =>
    let event_date := c.signup_date + pyRandint (O.dayEnt i j) 0 days_active
    let feature_used := pyChoice (O.featEnt i j) (plan_features c.plan_type) .dashboard_view
    let duration := pyInt (base_duration feature_used * pyUniform (O.durR i j) 0.3 2.0)
    let actions_count := pyRandint (O.actEnt i j) 1 (max 1 (duration / 3))
    { event_id := ctr
      customer_id := c.customer_id
      event_date := event_date
      feature_used := feature_used
      session_duration_minutes := duration
      actions_count := actions_count } :: usageInner O i c days_active rest (ctr + 1)

/-- Outer customer loop of `generate_usage_events`.  `now` stands for
`datetime.now()`; customers whose active span `min(2024-10-01, now) - signup`
is not positive are skipped. -/
def usageOuter (O : UsageOracle) (avg : Nat) (now : Int) :
    List (Nat × Customer) → Nat → List UsageEvent
  | [], _ => []
  | (i, c) :: rest, ctr =>
    let num_events :=
      (pyInt ((avg : ℚ) * plan_multiplier c.plan_type * pyUniform (O.cntR i) 0.5 1.5)).toNat
    let end_date := min globalEndDate now
    let days_active := end_date - c.signup_date
    if days_active ≤ 0 then usageOuter O avg now rest ctr
    else
      let es := usageInner O i c days_active (List.range num_events) ctr
      es ++ usageOuter O avg now rest (ctr + es.length)

/-- `generate_usage_events(customers_data, events_per_customer_avg)`.  `now` is
the ambient `datetime.now()` value of the run, in days from 2022-01-01. -/
def generate_usage_events (O : UsageOracle) (customers_data : List Customer)
    (events_per_customer_avg : Nat) (now : Int) : List UsageEvent :=
  usageOuter O events_per_customer_avg now customers_data.enum 1

/-! ### `generate_support_tickets` -/

/-- Entropy for `generate_support_tickets`. -/
structure TicketsOracle where
  sampEnt : Nat → Nat
  poisson : Nat → Nat
  dayEnt : Nat → Nat → Nat
  catEnt : Nat → Nat → Nat
  priEnt : Nat → Nat → Nat
  statEnt : Nat → Nat → Nat
  resR : Nat → Nat → ℚ
  satEnt : Nat → Nat → Nat
  textEnt : Nat → Nat → Nat

/-- The `categories` list. -/
def categories : List Category :=
  [.billing, .technical_issue, .feature_request, .account_access,
   .integration_help, .data_export, .performance, .training, .bug_report]

/-- The `priorities` list. -/
def priorities : List Priority := [.low, .medium, .high, .urgent]

/-- The `priority_weights` vector. -/
def priority_weights : List ℚ := [0.4, 0.35, 0.2, 0.05]

/-- The `statuses` list. -/
def statuses : List TicketStatus := [.resolved, .closed, .pending]

/-- The `status_weights` vector. -/
def status_weights : List ℚ := [0.7, 0.25, 0.05]

/-- The `priority_hours` table used for resolution times. -/
def priority_hours (p : Priority) : ℚ :=
  match p with
  | .low => 48 | .medium => 24 | .high => 8 | .urgent => 2

/-- The `ticket_templates` table: four canned texts per category (apostrophes
written as `\x27` escapes). -/
def ticket_templates (c : Category) : List String :=
  match c with
  | .billing =>
    ["I was charged twice this month and need a refund. This is very frustrating as it affects our budget.",
     "Can you help me understand the billing changes? The new pricing seems much higher than expected.",
     "My payment failed but I\x27m not sure why. Can you help me resolve this quickly?",
     "I need to downgrade my plan but can\x27t find the option. The current cost is too high for our small team."]
  | .technical_issue =>
    ["The dashboard is loading very slowly and sometimes crashes. This is impacting our daily operations.",
     "I can\x27t export data - getting an error message every time I try. This is blocking our reporting.",
     "The mobile app keeps crashing when I try to view reports. Very disappointing experience.",
     "API calls are failing intermittently. Our integration is broken and customers are complaining."]
  | .feature_request =>
    ["Would love to see dark mode added to the interface. Many of our team members have requested this.",
     "Can you add more export formats? We need Excel compatibility for our stakeholders.",
     "Real-time notifications would be amazing for our workflow. Currently we miss important updates.",
     "Better mobile experience would help our field team access data on the go."]
  | .account_access =>
    ["I forgot my password and the reset email isn\x27t coming through. Need access urgently.",
     "Can you help me add new team members to our account? The process isn\x27t clear.",
     "My account seems to be locked after multiple login attempts. Please help unlock it.",
     "Need to transfer account ownership to a new admin. What\x27s the process for this?"]
  | .integration_help =>
    ["Having trouble connecting to Salesforce. The integration guide isn\x27t clear enough.",
     "API documentation is confusing. Can someone walk me through the setup process?",
     "Webhook setup is failing. Getting authentication errors that I can\x27t resolve.",
     "Need help with custom integration. Our development team is stuck on the implementation."]
  | .data_export =>
    ["Large data exports are timing out. Need a solution for exporting our complete dataset.",
     "Export format is missing some columns we need. Can this be customized?",
     "Scheduled exports stopped working last week. Our automated reports are broken.",
     "Need help with bulk data migration. Moving to new system and need all historical data."]
  | .performance =>
    ["System is very slow during peak hours. Reports take forever to load.",
     "Dashboard performance has degraded significantly over the past month.",
     "Query timeouts are happening frequently. This is impacting our productivity.",
     "Page load times are unacceptable. Considering switching to a competitor."]
  | .training =>
    ["New team members need training on advanced features. Do you offer sessions?",
     "Looking for best practices documentation. Want to optimize our usage.",
     "Can you provide training materials for our specific use case?",
     "Onboarding process could be improved. New users are struggling to get started."]
  | .bug_report =>
    ["Found a bug in the reporting module. Charts are showing incorrect data.",
     "Filter functionality is broken on the analytics page. Please investigate.",
     "Getting JavaScript errors in the browser console. Interface is unstable.",
     "Data synchronization issue - seeing stale data that should have updated hours ago."]

/-- The sampled customer subset receiving tickets:
`random.sample(customers_data, min(len(customers_data), 3000))`. -/
def customers_with_tickets (O : TicketsOracle) (customers_data : List Customer) :
    List Customer :=
  pySample O.sampEnt customers_data (min customers_data.length 3000)

/-- One ticket of `generate_support_tickets` for the customer `c` at sampled
position `i`, ticket number `j`, with `ticket_id` counter `ctr`.  Returns `none`
when `days_since_signup ≤ 0` (the per-ticket `continue`). -/
def ticketCore (O : TicketsOracle) (i j : Nat) (c : Customer) (ctr : Nat) :
    Option SupportTicket :=
  let days_since_signup := globalEndDate - c.signup_date
  if days_since_signup ≤ 0 then none
  else
    let ticket_date := c.signup_date + pyRandint (O.dayEnt i j) 1 days_since_signup
    let category := pyChoice (O.catEnt i j) categories .billing
    let priority := pyWeightedChoice (O.priEnt i j) priorities priority_weights .low
    let status := pyWeightedChoice (O.statEnt i j) statuses status_weights .resolved
    let ticket_text := pyChoice (O.textEnt i j) (ticket_templates category) ""
    let base_hours := priority_hours priority
    let rtv := pyInt (base_hours * pyUniform (O.resR i j) 0.5 2.0)
    let resolution_time : Option Int :=
      if status = .resolved ∨ status = .closed then some rtv else none
    let satisfaction : Option Nat :=
      if status = .resolved ∨ status = .closed then
        some (if priority = .urgent ∧ rtv ≤ 4 then pyChoice (O.satEnt i j) [4, 5, 5] 4
          else if 72 < rtv then pyChoice (O.satEnt i j) [1, 2, 2, 3] 1
          else pyChoice (O.satEnt i j) [2, 3, 3, 4, 4] 2)
      else none
    some
      { ticket_id := ctr
        customer_id := c.customer_id
        created_date := ticket_date
        category := category
        priority := priority
        status := status
        resolution_time_hours := resolution_time
        satisfaction_score := satisfaction
        ticket_text := ticket_text }

/-- Inner per-ticket loop (`for _ in range(min(num_tickets, 10))`), threading the
global `ticket_counter` (which advances only when a ticket is emitted). -/
def ticketsInner (O : TicketsOracle) (i : Nat) (c : Customer) :
    List Nat → Nat → List SupportTicket
  | [], _ => []
  | j :: rest, ctr =>
    match ticketCore O i j c ctr with
    | none => ticketsInner O i c rest ctr
    | some t => t :: ticketsInner O i c rest (ctr + 1)

/-- Outer customer loop of `generate_support_tickets`: Poisson ticket count,
zero-count customers skipped, at most 10 tickets per customer. -/
def ticketsOuter (O : TicketsOracle) : List (Nat × Customer) → Nat → List SupportTicket
  | [], _ => []
  | (i, c) :: rest, ctr =>
    let num_tickets := O.poisson i
    if num_tickets = 0 then ticketsOuter O rest ctr
    else
      let ts := ticketsInner O i c (List.range (min num_tickets 10)) ctr
      ts ++ ticketsOuter O rest (ctr + ts.length)

/-- `generate_support_tickets(customers_data, tickets_per_customer_avg)`.  The
average is the Poisson mean; it shapes only the distribution of `O.poisson`
(whose support is all of ℕ), so it is unused in the entropy model. -/
def generate_support_tickets (O : TicketsOracle) (customers_data : List Customer)
    (_tickets_per_customer_avg : Nat) : List SupportTicket :=
  ticketsOuter O (customers_with_tickets O customers_data).enum 1

/-! ### `generate_churn_events` -/

/-- Entropy for `generate_churn_events`. -/
structure ChurnOracle where
  histSampEnt : Nat → Nat
  histDayEnt : Nat → Nat
  histReasonEnt : Nat → Nat
  recentSampEnt : Nat → Nat
  recentDayEnt : Nat → Nat
  recentReasonEnt : Nat → Nat

/-- The `churn_reasons` list. -/
def churn_reasons : List String :=
  ["pricing_too_high", "poor_performance", "missing_features",
   "competitor_switch", "business_closure", "poor_support",
   "technical_issues", "ease_of_use", "integration_problems"]

/-- The `historical_reason_weights` vector. -/
def historical_reason_weights : List ℚ :=
  [0.15, 0.12, 0.15, 0.20, 0.08, 0.10, 0.08, 0.07, 0.05]

/-- The `recent_reason_weights` vector. -/
def recent_reason_weights : List ℚ :=
  [0.35, 0.25, 0.10, 0.15, 0.03, 0.05, 0.04, 0.02, 0.01]

/-- The `historical_customers` partition: customers with `signup_date` strictly
before the recency cutoff.  (The complementary `recent_customers` list is built
by the source only to be printed.) -/
def historical_customers (customers_data : List Customer) : List Customer :=
  customers_data.filter fun c => decide (c.signup_date < recentCutoff)

/-- `historical_churn_count = int(len(historical_customers) * 0.03)`. -/
def historical_churn_count (n : Nat) : Nat := (pyInt ((n : ℚ) * 0.03)).toNat

/-- `historical_churned = random.sample(historical_customers, historical_churn_count)`. -/
def historical_churned (O : ChurnOracle) (customers_data : List Customer) : List Customer :=
  pySample O.histSampEnt (historical_customers customers_data)
    (historical_churn_count (historical_customers customers_data).length)

/-- Baseline churn loop over `historical_churned`, threading `churn_counter`.
A sampled customer whose tenure at the cutoff is at most 30 days is skipped
(`continue`) and emits nothing. -/
def histChurnLoop (O : ChurnOracle) : List Customer → Nat → Nat → List ChurnEvent
  | [], _, _ => []
  | c :: rest, i, ctr =>
    let max_days := recentCutoff - c.signup_date
    if max_days ≤ 30 then histChurnLoop O rest (i + 1) ctr
    else
      let min_days := max 30 (max_days / 4)
      let churn_days := pyRandint (O.histDayEnt i) min_days max_days
      let churn_reason :=
        pyWeightedChoice (O.histReasonEnt i) churn_reasons historical_reason_weights ""
      { churn_id := ctr
        customer_id := c.customer_id
        churn_date := c.signup_date + churn_days
        churn_reason := churn_reason
        days_since_signup := churn_days
        final_plan_type := c.plan_type
        final_monthly_revenue := c.monthly_revenue } ::
          histChurnLoop O rest (i + 1) (ctr + 1)

/-- `eligible_for_recent_churn`: historical customers not already churned
(membership is Python value equality of the customer dicts). -/
def eligible_for_recent_churn (O : ChurnOracle) (customers_data : List Customer) :
    List Customer :=
  (historical_customers customers_data).filter fun c =>
    decide (c ∉ historical_churned O customers_data)

/-- `recent_churn_count = int(len(eligible) * 0.05)`. -/
def recent_churn_count (n : Nat) : Nat := (pyInt ((n : ℚ) * 0.05)).toNat

/-- `recent_churned = random.sample(eligible, min(recent_churn_count, len(eligible)))`. -/
def recent_churned (O : ChurnOracle) (customers_data : List Customer) : List Customer :=
  pySample O.recentSampEnt (eligible_for_recent_churn O customers_data)
    (min (recent_churn_count (eligible_for_recent_churn O customers_data).length)
      (eligible_for_recent_churn O customers_data).length)

/-- Recent-spike churn loop: churn date uniform in the recent window, one event
per sampled customer. -/
def recentChurnLoop (O : ChurnOracle) : List Customer → Nat → Nat → List ChurnEvent
  | [], _, _ => []
  | c :: rest, i, ctr =>
    let churn_start := recentCutoff
    let churn_end := globalEndDate
    let churn_date := churn_start + pyRandint (O.recentDayEnt i) 0 (churn_end - churn_start)
    let days_since_signup := churn_date - c.signup_date
    let churn_reason :=
      pyWeightedChoice (O.recentReasonEnt i) churn_reasons recent_reason_weights ""
    { churn_id := ctr
      customer_id := c.customer_id
      churn_date := churn_date
      churn_reason := churn_reason
      days_since_signup := days_since_signup
      final_plan_type := c.plan_type
      final_monthly_revenue := c.monthly_revenue } ::
        recentChurnLoop O rest (i + 1) (ctr + 1)

/-- `generate_churn_events(customers_data)`: baseline (3%) events over the
historical cohort followed by the recent-spike (additional 5%) events drawn
from the complement, with the `churn_counter` threaded through both loops. -/
def generate_churn_events (O : ChurnOracle) (customers_data : List Customer) :
    List ChurnEvent :=
  let he := histChurnLoop O (historical_churned O customers_data) 0 1
  he ++ recentChurnLoop O (recent_churned O customers_data) 0 (1 + he.length)

/-- The status update of `insert_churn_events_data`:
`UPDATE CUSTOMERS SET status = 'churned' WHERE customer_id IN (...)` over the
customer ids of the generated churn events. -/
def updateChurnedStatus (customers : List Customer) (events : List ChurnEvent) :
    List Customer :=
  customers.map fun c =>
    if events.any fun e => e.customer_id == c.customer_id then
      { c with status := .churned }
    else c

/-- The generation pipeline of `main()`: 10000 customers (here a parameter `n`),
usage events over the first 2000, support tickets and churn events over all.
`now` is the wall-clock date (`datetime.now()`) at which the run happens. -/
def fullPipeline (Oc : CustomersOracle) (Ou : UsageOracle) (Ot : TicketsOracle)
    (Oe : ChurnOracle) (now : Int) (n : Nat) :
    List Customer × List UsageEvent × List SupportTicket × List ChurnEvent :=
  let customers_data := generate_customers_data Oc n
  let usage_events_data := generate_usage_events Ou (customers_data.take 2000) 50 now
  let support_tickets_data := generate_support_tickets Ot customers_data 3
  let churn_events_data := generate_churn_events Oe customers_data
  (customers_data, usage_events_data, support_tickets_data, churn_events_data)

/-! ### `studio_app.py`: parsed JSON values and `parse_agent_stream_response`

The Python stdlib collaborators `json.loads` and `str()` are external to the
routing logic under verification; they are supplied as an environment `PyEnv`
(`loads` returns `none` exactly when `json.loads` raises). -/

/-- A Python value as produced by `json.loads`. -/
inductive PyVal where
  | pnull
  | pbool (b : Bool)
  | pnum (q : ℚ)
  | pstr (s : String)
  | plist (l : List PyVal)
  | pdict (d : List (String × PyVal))
  deriving Repr

mutual

/-- Structural equality of Python values (`==`). -/
def PyVal.beq : PyVal → PyVal → Bool
  | .pnull, .pnull => true
  | .pbool a, .pbool b => a == b
  | .pnum a, .pnum b => a == b
  | .pstr a, .pstr b => a == b
  | .plist a, .plist b => PyVal.beqList a b
  | .pdict a, .pdict b => PyVal.beqDict a b
  | _, _ => false

/-- Elementwise equality of Python lists. -/
def PyVal.beqList : List PyVal → List PyVal → Bool
  | [], [] => true
  | a :: as, b :: bs => PyVal.beq a b && PyVal.beqList as bs
  | _, _ => false

/-- Entrywise equality of Python dicts (keys are unique and ordered by
insertion in `json.loads` output). -/
def PyVal.beqDict : List (String × PyVal) → List (String × PyVal) → Bool
  | [], [] => true
  | (k, v) :: as, (k2, v2) :: bs => k == k2 && PyVal.beq v v2 && PyVal.beqDict as bs
  | _, _ => false

end

instance : BEq PyVal := ⟨PyVal.beq⟩

/-- Python `d.get(key)` on a parsed JSON object (keys are unique). -/
def pyDictGet (d : List (String × PyVal)) (k : String) : Option PyVal :=
  (d.find? fun e => e.1 == k).map fun e => e.2

/-- Python `d.get(key, default)`. -/
def pyDictGetD (d : List (String × PyVal)) (k : String) (dflt : PyVal) : PyVal :=
  (pyDictGet d k).getD dflt

/-- Python `key in d`. -/
def pyHasKey (d : List (String × PyVal)) (k : String) : Bool :=
  (pyDictGet d k).isSome

/-- The Python stdlib collaborators of the chunk parser: `json.loads` (with
`none` for a raised `JSONDecodeError`/`TypeError`) and `str()`. -/
structure PyEnv where
  loads : String → Option PyVal
  str : PyVal → String

/-- Python `chunk.startswith("\x7b")` for the one-character prefix used by the
parser: the first character of the chunk is an opening brace. -/
def startsWithBrace (s : String) : Bool := s.data.head? = some (Char.ofNat 123)

/-- Test `chunk_data.get("type") == "text"`. -/
def isTextChunk (d : List (String × PyVal)) : Bool :=
  match pyDictGet d "type" with
  | some (.pstr s) => s == "text"
  | _ => false

/-- One iteration of the chunk loop of `parse_agent_stream_response`: the
accumulator carries `response_parts` and `errors` (both Python lists of
arbitrary values, since `dict.get` is unchecked). -/
def parseChunkStep (env : PyEnv) (acc : List PyVal × List PyVal) (chunk : String) :
    List PyVal × List PyVal :=
  match env.loads chunk with
  | some (.pdict d) =>
    if isTextChunk d then (acc.1 ++ [pyDictGetD d "text" (.pstr "")], acc.2)
    else if pyHasKey d "content" then
      (acc.1 ++ [.pstr (env.str (pyDictGetD d "content" (.pstr "")))], acc.2)
    else if pyHasKey d "message" then
      (acc.1, acc.2 ++ [pyDictGetD d "message" (.pstr "Unknown error")])
    else (acc.1, acc.2)
  | some v => (acc.1 ++ [.pstr (env.str v)], acc.2)
  | none =>
    if chunk ≠ "" ∧ ¬ startsWithBrace chunk then (acc.1 ++ [.pstr chunk], acc.2)
    else acc

/-- Python `"".join(parts)`: concatenation, or `none` for the `TypeError`
raised when some accumulated part is not a string. -/
def pyJoin : List PyVal → Option String
  | [] => some ""
  | .pstr s :: rest => (pyJoin rest).map fun t => s ++ t
  | _ => none

/-- `parse_agent_stream_response(chunks)`; `none` models the call raising
(which happens exactly when the final join meets a non-string part). -/
def parse_agent_stream_response (env : PyEnv) (chunks : List String) :
    Option (String × List PyVal) :=
  let acc := chunks.foldl (parseChunkStep env) ([], [])
  (pyJoin acc.1).map fun s => (s, acc.2)

/-- Per-chunk response-text contribution, written from the spec's wording: a
non-JSON fragment is kept as raw text exactly when it is non-empty and does not
start with a brace; a type-`text` object contributes its `text` field; an object
with a `content` key contributes `str(content)`; other JSON values contribute
their `str()` image; everything else contributes nothing. -/
def specTextContribution (env : PyEnv) (chunk : String) : List PyVal :=
  match env.loads chunk with
  | some (.pdict d) =>
    if isTextChunk d then [pyDictGetD d "text" (.pstr "")]
    else if pyHasKey d "content" then [.pstr (env.str (pyDictGetD d "content" (.pstr "")))]
    else []
  | some v => [.pstr (env.str v)]
  | none => if chunk ≠ "" ∧ ¬ startsWithBrace chunk then [.pstr chunk] else []

/-- Per-chunk error contribution, written from the spec's wording: the
`message` value of a JSON-object chunk is collected exactly when the object is
not a type-`text` chunk and has no `content` key but has a `message` key. -/
def specErrorContribution (env : PyEnv) (chunk : String) : List PyVal :=
  match env.loads chunk with
  | some (.pdict d) =>
    if ¬ isTextChunk d ∧ ¬ pyHasKey d "content" ∧ pyHasKey d "message" then
      [pyDictGetD d "message" (.pstr "Unknown error")]
    else []
  | _ => []

/-- Condition under which a chunk cannot poison the final join: if it is a
type-`text` JSON object, its `text` field (defaulted to `""`) is a string. -/
def chunkTextIsString (env : PyEnv) (chunk : String) : Prop :=
  match env.loads chunk with
  | some (.pdict d) =>
    isTextChunk d = true → ∃ s, pyDictGetD d "text" (.pstr "") = .pstr s
  | _ => True

/-! ### `studio_app.py`: supervisor/agent graph -/

/-- One step of an execution plan.  Only the `agent` field (with `none` for a
missing key) drives routing; the remaining step keys (`purpose`,
`uses_data_from`, ...) only shape the outbound LLM queries, which the agent
result oracles absorb. -/
structure PlanStep where
  agent : Option String
  deriving DecidableEq, Repr

/-- An execution plan as parsed from the planning response. -/
structure Plan where
  plan_summary : String
  steps : List PlanStep
  deriving DecidableEq, Repr

/-- A message in the LangGraph state (`name` is the producing agent). -/
structure Msg where
  name : Option String
  content : String
  deriving DecidableEq, Repr

/-- The `State` of the workflow.  `query` is the latest human message (what
`get_latest_human_message` extracts). -/
structure GState where
  query : String
  messages : List Msg
  plan : Option Plan
  current_step : Nat
  agent_outputs : List (String × String)
  execution_errors : List String
  planning_complete : Bool
  deriving Repr

/-- The routing target of a `Command`: a named node or `__end__`. -/
inductive Goto where
  | node (name : String)
  | end_
  deriving DecidableEq, Repr

/-- The `AGENT_NAMES` list. -/
def AGENT_NAMES : List String := ["CONTENT_AGENT", "DATA_ANALYST_AGENT", "RESEARCH_AGENT"]

/-- `has_plan(state)`. -/
def has_plan (s : GState) : Bool := s.plan.isSome && s.planning_complete

/-- `get_current_step(state)`: the step at index `current_step`, if any. -/
def get_current_step (s : GState) : Option PlanStep :=
  s.plan.bind fun p => p.steps.get? s.current_step

/-- `is_plan_complete(state)`: every plan in this model has a `steps` field, so
the check is `current_step >= len(steps)` (and `True` without a plan). -/
def is_plan_complete (s : GState) : Bool :=
  match s.plan with
  | some p => decide (p.steps.length ≤ s.current_step)
  | none => true

/-- Python dict assignment on an association list: overwrite in place or append. -/
def dictSet (l : List (String × String)) (k v : String) : List (String × String) :=
  if l.any fun kv => kv.1 == k then
    l.map fun kv => if kv.1 == k then (k, v) else kv
  else l ++ [(k, v)]

/-- `get_all_agent_outputs(state)`: the dedicated field, or a scan of agent
messages when it is empty (Python empty-dict falsiness). -/
def get_all_agent_outputs (s : GState) : List (String × String) :=
  if s.agent_outputs ≠ [] then s.agent_outputs
  else
    s.messages.foldl
      (fun acc m =>
        match m.name with
        | some n => if n ∈ AGENT_NAMES then dictSet acc n m.content else acc
        | none => acc)
      []

/-- Oracles for the external collaborators of one graph run: the planning
LLM+parse outcome (`none` for the exception path that installs the fallback
plan), per-invocation agent results (indexed by the `current_step` at call
time), the streamed chunk lists, and the synthesis LLM outcome. -/
structure GraphOracle where
  env : PyEnv
  planned : Option Plan
  contentResult : Nat → Except String String
  analystChunks : Nat → Except String (List String)
  researchChunks : Nat → Except String (List String)
  synthResult : Except String String

/-- The raw-output fallback answer built when synthesis raises. -/
def synthesisFallback (outputs : List (String × String)) : String :=
  "Analysis:\n\n" ++
    String.intercalate "\n\n"
      (outputs.map fun kv => "**" ++ kv.1 ++ "**:\n" ++ kv.2.take 2000)

/-- MODE 3 of `supervisor_node` (synthesis): both the success path and the
exception path append a supervisor message and route to `__end__`. -/
def synthesisMode (O : GraphOracle) (s : GState) : GState × Goto :=
  match O.synthResult with
  | .ok content =>
    ({ s with messages := s.messages ++ [{ name := some "supervisor", content := content }] },
      .end_)
  | .error _ =>
    ({ s with
        messages := s.messages ++
          [{ name := some "supervisor",
             content := synthesisFallback (get_all_agent_outputs s) }] },
      .end_)

/-- `supervisor_node(state)`: planning when no plan exists, routing while the
plan is incomplete (falling through to synthesis when the current step has no
valid agent name — an empty step dict is falsy and has no agent key, so both
source fall-throughs land in the same branch), synthesis otherwise. -/
def supervisor_node (O : GraphOracle) (s : GState) : GState × Goto :=
  if has_plan s = false then
    if s.query = "" then
      let empty_plan : Plan := { plan_summary := "No query", steps := [] }
      ({ s with plan := some empty_plan, planning_complete := true }, .end_)
    else
      match O.planned with
      | some plan =>
        let first_step := plan.steps.head?.getD { agent := none }
        let first_agent := first_step.agent.getD "CONTENT_AGENT"
        ({ s with
            plan := some plan, current_step := 0, planning_complete := true,
            agent_outputs := [], execution_errors := [] }, .node first_agent)
      | none =>
        let fallback_plan : Plan :=
          { plan_summary := "Direct query routing", steps := [{ agent := some "CONTENT_AGENT" }] }
        ({ s with
            plan := some fallback_plan, current_step := 0, planning_complete := true,
            agent_outputs := [], execution_errors := [] }, .node "CONTENT_AGENT")
  else if is_plan_complete s = false then
    match get_current_step s with
    | some step =>
      match step.agent with
      | some next_agent =>
        if next_agent ∈ AGENT_NAMES then (s, .node next_agent)
        else synthesisMode O s
      | none => synthesisMode O s
    | none => synthesisMode O s
  else synthesisMode O s

/-- `content_agent_node(state)`: invoke the content agent; on success record the
output, on exception record the error — either way `current_step` advances by
one and control returns to the supervisor. -/
def content_agent_node (O : GraphOracle) (s : GState) : GState × Goto :=
  let i := s.current_step
  match O.contentResult i with
  | .ok out =>
    ({ s with
        messages := s.messages ++ [{ name := some "CONTENT_AGENT", content := out }],
        current_step := i + 1,
        agent_outputs := dictSet s.agent_outputs "CONTENT_AGENT" out }, .node "supervisor")
  | .error e =>
    ({ s with
        messages := s.messages ++ [{ name := some "CONTENT_AGENT", content := "Error: " ++ e }],
        current_step := i + 1,
        execution_errors := s.execution_errors ++ ["CONTENT_AGENT error: " ++ e] },
      .node "supervisor")

/-- Common body of `data_analyst_agent_node` and `research_agent_node`: stream
chunks, parse them, deduplicate stream errors (Python `list(set(...))`, whose
iteration order is unspecified; first-occurrence order is one admissible
order) and keep at most three; a raised parse (non-string join part) is caught
by the same `except` as a streaming failure.  Every path advances
`current_step` by one and returns to the supervisor. -/
def stream_agent_node (name tag : String) (chunksOf : Nat → Except String (List String))
    (env : PyEnv) (s : GState) : GState × Goto :=
  let i := s.current_step
  let failWith := fun (e : String) =>
    ({ s with
        messages := s.messages ++ [{ name := some name, content := "Error: " ++ e }],
        current_step := i + 1,
        execution_errors := s.execution_errors ++ [name ++ " error: " ++ e] },
      Goto.node "supervisor")
  match chunksOf i with
  | .error e => failWith e
  | .ok chunks =>
    match parse_agent_stream_response env chunks with
    | none => failWith "TypeError: sequence item: expected str instance"
    | some (response_content, stream_errors) =>
      let errs :=
        if stream_errors.isEmpty then s.execution_errors
        else
          s.execution_errors ++
            ((stream_errors.eraseDups).take 3).map fun e => tag ++ ": " ++ env.str e
      ({ s with
          messages := s.messages ++ [{ name := some name, content := response_content }],
          current_step := i + 1,
          agent_outputs := dictSet s.agent_outputs name response_content,
          execution_errors := errs }, .node "supervisor")

/-- `data_analyst_agent_node(state)`. -/
def data_analyst_agent_node (O : GraphOracle) (s : GState) : GState × Goto :=
  stream_agent_node "DATA_ANALYST_AGENT" "DATA_ANALYST" O.analystChunks O.env s

/-- `research_agent_node(state)`. -/
def research_agent_node (O : GraphOracle) (s : GState) : GState × Goto :=
  stream_agent_node "RESEARCH_AGENT" "RESEARCH" O.researchChunks O.env s

/-- The compiled graph: run the supervisor; on `__end__` stop, otherwise run the
addressed agent node (each agent returns to the supervisor) and continue.
Returns the final state and the number of agent invocations, or `none` when the
fuel runs out or a `Command` addresses a node absent from the graph (a LangGraph
runtime error). -/
def runLoop (O : GraphOracle) : Nat → GState → Option (GState × Nat)
  | 0, _ => none
  | fuel + 1, s =>
    match supervisor_node O s with
    | (s1, .end_) => some (s1, 0)
    | (s1, .node a) =>
      if a = "CONTENT_AGENT" then
        (runLoop O fuel (content_agent_node O s1).1).map fun r => (r.1, r.2 + 1)
      else if a = "DATA_ANALYST_AGENT" then
        (runLoop O fuel (data_analyst_agent_node O s1).1).map fun r => (r.1, r.2 + 1)
      else if a = "RESEARCH_AGENT" then
        (runLoop O fuel (research_agent_node O s1).1).map fun r => (r.1, r.2 + 1)
      else none

/-! ### Concrete instances used by counterexamples and witnesses

Each instance fixes one admissible behaviour of the random stream (or of the
external collaborators) at a concrete input; the generators are then evaluated
on it. -/

/-- A customers oracle whose every signup draw is 902 (signup 2024-06-21, ten
days before the churn cutoff): a possible, if improbable, run of the stream. -/
def custOracleLate : CustomersOracle :=
  { signupEnt := fun _ => 902, sizeEnt := fun _ => 0, planEnt := fun _ => 0,
    industryEnt := fun _ => 0, revR := fun _ => 0 }

/-- A customers oracle drawing the earliest signup date (2022-01-01) throughout. -/
def custOracleZero : CustomersOracle :=
  { signupEnt := fun _ => 0, sizeEnt := fun _ => 0, planEnt := fun _ => 0,
    industryEnt := fun _ => 0, revR := fun _ => 0 }

/-- A churn oracle whose every raw draw is zero. -/
def zeroChurnOracle : ChurnOracle :=
  { histSampEnt := fun _ => 0, histDayEnt := fun _ => 0, histReasonEnt := fun _ => 0,
    recentSampEnt := fun _ => 0, recentDayEnt := fun _ => 0, recentReasonEnt := fun _ => 0 }

/-- A usage oracle with mid-range count jitter and a fixed day draw of 500. -/
def usageOracle500 : UsageOracle :=
  { cntR := fun _ => 1 / 2, dayEnt := fun _ _ => 500, featEnt := fun _ _ => 0,
    durR := fun _ _ => 0, actEnt := fun _ _ => 0 }

/-- A tickets oracle deterministically drawing two tickets per sampled customer. -/
def ticketsOracleTwo : TicketsOracle :=
  { sampEnt := fun _ => 0, poisson := fun _ => 2, dayEnt := fun _ _ => 0,
    catEnt := fun _ _ => 0, priEnt := fun _ _ => 0, statEnt := fun _ _ => 0,
    resR := fun _ _ => 0, satEnt := fun _ _ => 0, textEnt := fun _ _ => 0 }

/-- One concrete customer record (signup on day `0`, i.e. 2022-01-01) with
customer number `i + 1`. -/
def flatCustomer (i : Nat) : Customer :=
  { customer_id := i + 1, signup_date := 0, plan_type := .starter,
    company_size := .small, industry := "technology", status := .active,
    monthly_revenue := 29 }

/-- A list of `n` distinct such customers. -/
def flatCustomers (n : Nat) : List Customer := (List.range n).map flatCustomer

/-- A `json.loads` behaviour fixing the two JSON chunks used by the C9
counterexample: a type-`text` object that also carries a `message` key, and a
type-`text` object whose `text` value is the number `5`.  Every other string
(in particular the undecodable fragment `"\x7boops"`) fails to parse. -/
def loadsC9 : String → Option PyVal := fun s =>
  if s = "\x7b\"type\": \"text\", \"text\": \"hi\", \"message\": \"err\"\x7d" then
    some (.pdict [("type", .pstr "text"), ("text", .pstr "hi"), ("message", .pstr "err")])
  else if s = "\x7b\"type\": \"text\", \"text\": 5\x7d" then
    some (.pdict [("type", .pstr "text"), ("text", .pnum 5)])
  else none

/-- The environment pairing `loadsC9` with a trivial `str()` (no exercised
branch of the counterexample stringifies a value). -/
def envC9 : PyEnv := { loads := loadsC9, str := fun _ => "" }

/-- An environment in which no chunk decodes as JSON. -/
def envNone : PyEnv := { loads := fun _ => none, str := fun _ => "" }

/-- A one-step plan whose step names an agent absent from `AGENT_NAMES`. -/
def planBogus : Plan := { plan_summary := "p", steps := [{ agent := some "BOGUS" }] }

/-- A two-step plan routing to the content agent and then the research agent. -/
def planTwo : Plan :=
  { plan_summary := "p",
    steps := [{ agent := some "CONTENT_AGENT" }, { agent := some "RESEARCH_AGENT" }] }

/-- The post-planning state holding the plan `p` at step 0. -/
def stateOf (p : Plan) : GState :=
  { query := "q", messages := [], plan := some p, current_step := 0,
    agent_outputs := [], execution_errors := [], planning_complete := true }

/-- A graph oracle: the content agent succeeds, the research agent raises, the
analyst streams nothing, synthesis succeeds. -/
def graphOracleA : GraphOracle :=
  { env := envNone, planned := none, contentResult := fun _ => .ok "A",
    analystChunks := fun _ => .ok [], researchChunks := fun _ => .error "boom",
    synthResult := .ok "done" }

/-! ### Lemmas about the Python primitive models -/

theorem pyInt_of_nonneg {q : ℚ} (h : 0 ≤ q) : pyInt q = ⌊q⌋ := by
  simp [pyInt, h]

theorem pyRandint_lower (ent : Nat) (a b : Int) : a ≤ pyRandint ent a b := by
  simp only [pyRandint, Int.ofNat_eq_coe]
  omega

theorem pyRandint_upper (ent : Nat) {a b : Int} (h : a ≤ b) : pyRandint ent a b ≤ b := by
  have h1 : (0 : Int) ≤ b - a + 1 := by omega
  have h2 : ((b - a + 1).toNat : Int) = b - a + 1 := Int.toNat_of_nonneg h1
  have h0 : 0 < (b - a + 1).toNat := by omega
  have h3 : ent % (b - a + 1).toNat < (b - a + 1).toNat := Nat.mod_lt _ h0
  have h4 : ((ent % (b - a + 1).toNat : Nat) : Int) < ((b - a + 1).toNat : Int) :=
    Int.ofNat_lt.mpr h3
  simp only [pyRandint, Int.ofNat_eq_coe]
  omega

theorem pyChoice_mem (ent : Nat) {l : List α} (d : α) (h : l ≠ []) :
    pyChoice ent l d ∈ l := by
  have hl : 0 < l.length := List.length_pos.mpr h
  have hm : ent % l.length < l.length := Nat.mod_lt _ hl
  simp only [pyChoice, List.getD_eq_getElem?_getD, List.getElem?_eq_getElem hm,
    Option.getD_some]
  exact List.getElem_mem hm

theorem pyWeightedChoice_eq_pyChoice (ent : Nat) (l : List α) (w : List ℚ) (d : α) :
    pyWeightedChoice ent l w d = pyChoice ent l d := rfl

theorem pySample_length (ent : Nat → Nat) :
    ∀ (k : Nat) (l : List α), (pySample ent l k).length = min k l.length := by
  intro k
  induction k with
  | zero => intro l; simp [pySample]
  | succ k ih =>
    intro l
    match l with
    | [] => simp [pySample]
    | a :: l =>
      have hj : ent k % (a :: l).length < (a :: l).length :=
        Nat.mod_lt _ (Nat.succ_pos _)
      simp only [pySample, List.length_cons, ih, List.length_eraseIdx]
      have hj2 : ent k % (l.length + 1) < l.length + 1 := by simpa using hj
      rw [if_pos hj2]
      omega

theorem subperm_cons_both {a : α} {l₁ l₂ : List α} (h : l₁.Subperm l₂) :
    (a :: l₁).Subperm (a :: l₂) := by
  obtain ⟨t, ht, hs⟩ := h
  exact ⟨a :: t, ht.cons a, hs.cons₂ a⟩

theorem subperm_map (f : α → β) {l₁ l₂ : List α} (h : l₁.Subperm l₂) :
    (l₁.map f).Subperm (l₂.map f) := by
  obtain ⟨t, ht, hs⟩ := h
  exact ⟨t.map f, ht.map f, hs.map f⟩

theorem cons_eraseIdx_perm [DecidableEq α] (l : List α) (j : Nat) (h : j < l.length) :
    (l.get ⟨j, h⟩ :: l.eraseIdx j).Perm l := by
  have h1 : l.Perm (l[j] :: l.erase l[j]) := List.perm_cons_erase (List.getElem_mem h)
  have h2 : (l.erase l[j]).Perm (l.eraseIdx j) := List.erase_getElem h
  have h3 : (l[j] :: l.erase l[j]).Perm (l[j] :: l.eraseIdx j) := h2.cons _
  simpa [List.get_eq_getElem] using (h1.trans h3).symm

theorem pySample_subperm [DecidableEq α] (ent : Nat → Nat) :
    ∀ (k : Nat) (l : List α), (pySample ent l k).Subperm l := by
  intro k
  induction k with
  | zero => intro l; simp [pySample, List.nil_subperm]
  | succ k ih =>
    intro l
    match l with
    | [] => simp [pySample, List.nil_subperm]
    | a :: l =>
      have hj : ent k % (a :: l).length < (a :: l).length :=
        Nat.mod_lt _ (Nat.succ_pos _)
      have hrec := ih ((a :: l).eraseIdx (ent k % (a :: l).length))
      have hcons := @subperm_cons_both _ ((a :: l).get ⟨_, hj⟩) _ _ hrec
      have hperm := cons_eraseIdx_perm (a :: l) (ent k % (a :: l).length) hj
      simpa [pySample] using hcons.trans hperm.subperm

theorem pySample_subset [DecidableEq α] (ent : Nat → Nat) (k : Nat) (l : List α) :
    ∀ x ∈ pySample ent l k, x ∈ l :=
  fun _ hx => (pySample_subperm ent k l).subset hx

theorem pySample_nodup [DecidableEq α] (ent : Nat → Nat) (k : Nat) {l : List α}
    (h : l.Nodup) : (pySample ent l k).Nodup := by
  obtain ⟨t, ht, hs⟩ := pySample_subperm ent k l
  exact ht.nodup_iff.mp (hs.nodup h)

/-! ### List bookkeeping lemmas -/

theorem filter_mem_of_sublist [DecidableEq α] {t l : List α} (h : t.Sublist l)
    (hl : l.Nodup) : (l.filter fun a => decide (a ∈ t)) = t := by
  induction h with
  | slnil => simp
  | @cons l₁ l₂ a h ih =>
    have hnd := (List.nodup_cons.mp hl).2
    have hna : a ∉ l₂ := (List.nodup_cons.mp hl).1
    have hat : a ∉ l₁ := fun hm => hna (h.subset hm)
    simp only [List.filter_cons, decide_eq_true_eq]
    rw [if_neg (by simpa using hat)]
    exact ih hnd
  | @cons₂ l₁ l₂ a h ih =>
    have hnd := (List.nodup_cons.mp hl).2
    have hna : a ∉ l₂ := (List.nodup_cons.mp hl).1
    simp only [List.filter_cons, decide_eq_true_eq]
    rw [if_pos (List.mem_cons_self a l₁)]
    have hcong : (l₂.filter fun x => decide (x ∈ a :: l₁)) =
        (l₂.filter fun x => decide (x ∈ l₁)) := by
      apply List.filter_congr
      intro x hx
      have hxa : x ≠ a := fun hh => hna (hh ▸ hx)
      simp [List.mem_cons, hxa]
    rw [hcong, ih hnd]

theorem length_filter_split (p : α → Bool) (l : List α) :
    (l.filter p).length + (l.filter fun a => ! p a).length = l.length := by
  induction l with
  | nil => simp
  | cons a l ih =>
    cases hpa : p a <;> simp [List.filter_cons, hpa] <;> omega

theorem length_filter_mem_of_subperm [DecidableEq α] {s l : List α} (hl : l.Nodup)
    (hs : s.Subperm l) : (l.filter fun a => decide (a ∈ s)).length = s.length := by
  obtain ⟨t, htp, hts⟩ := hs
  have h1 : (l.filter fun a => decide (a ∈ s)) = (l.filter fun a => decide (a ∈ t)) := by
    apply List.filter_congr
    intro x _
    simp [htp.mem_iff]
  rw [h1, filter_mem_of_sublist hts hl, htp.length_eq]

theorem length_filter_not_mem_of_subperm [DecidableEq α] {s l : List α} (hl : l.Nodup)
    (hs : s.Subperm l) :
    (l.filter fun a => decide (a ∉ s)).length = l.length - s.length := by
  have hsplit := length_filter_split (fun a => decide (a ∈ s)) l
  have hmem := length_filter_mem_of_subperm hl hs
  have hcong : (l.filter fun a => ! decide (a ∈ s)) = (l.filter fun a => decide (a ∉ s)) := by
    apply List.filter_congr
    intro x _
    simp
  have hlen := congrArg List.length hcong
  have hle : s.length ≤ l.length := hs.length_le
  omega

theorem forall₂_mem_left {R : α → β → Prop} :
    ∀ {l₁ : List α} {l₂ : List β}, List.Forall₂ R l₁ l₂ → ∀ a ∈ l₁, ∃ b ∈ l₂, R a b := by
  intro l₁ l₂ h
  induction h with
  | nil => intro a ha; simp at ha
  | cons hr _ ih =>
    intro x hx
    rcases List.mem_cons.mp hx with h1 | h2
    · exact ⟨_, List.mem_cons_self _ _, h1 ▸ hr⟩
    · obtain ⟨b, hb, hR⟩ := ih x h2
      exact ⟨b, List.mem_cons_of_mem _ hb, hR⟩

theorem count_map_eq_countP [DecidableEq β] (f : α → β) (l : List α) (b : β) :
    (l.map f).count b = l.countP fun a => decide (f a = b) := by
  induction l with
  | nil => simp
  | cons a l ih =>
    by_cases h : f a = b
    · simp [List.count_cons, List.countP_cons, h, ih]
    · simp [List.count_cons, List.countP_cons, h, ih, Ne.symm h]

theorem subperm_nodup {l₁ l₂ : List α} (h : l₁.Subperm l₂) (h₂ : l₂.Nodup) : l₁.Nodup := by
  obtain ⟨t, ht, hs⟩ := h
  exact ht.nodup_iff.mp (hs.nodup h₂)

/-! ### Structural lemmas about the generators -/

theorem generate_customers_length (O : CustomersOracle) (n : Nat) :
    (generate_customers_data O n).length = n := by
  simp [generate_customers_data]

theorem generate_customers_map_cid (O : CustomersOracle) (n : Nat) :
    (generate_customers_data O n).map Customer.customer_id = (List.range n).map (· + 1) := by
  simp only [generate_customers_data, List.map_map]
  rfl

theorem generate_customers_cid_nodup (O : CustomersOracle) (n : Nat) :
    ((generate_customers_data O n).map Customer.customer_id).Nodup := by
  rw [generate_customers_map_cid]
  exact (List.nodup_range n).map fun a b h => by omega

theorem generate_customers_status (O : CustomersOracle) (n : Nat) :
    ∀ c ∈ generate_customers_data O n, c.status = CustStatus.active := by
  intro c hc
  simp only [generate_customers_data, List.mem_map, List.mem_range] at hc
  obtain ⟨i, _, rfl⟩ := hc
  rfl

theorem histChurnLoop_forall₂ (O : ChurnOracle) :
    ∀ (l : List Customer) (i ctr : Nat),
      List.Forall₂ (fun (e : ChurnEvent) (c : Customer) =>
          e.customer_id = c.customer_id ∧
          30 ≤ e.days_since_signup ∧
          max 30 ((recentCutoff - c.signup_date) / 4) ≤ e.days_since_signup ∧
          e.days_since_signup ≤ recentCutoff - c.signup_date ∧
          e.churn_date = c.signup_date + e.days_since_signup ∧
          e.churn_date ≤ recentCutoff)
        (histChurnLoop O l i ctr)
        (l.filter fun c => decide (30 < recentCutoff - c.signup_date)) := by
  intro l
  induction l with
  | nil => intro i ctr; simp [histChurnLoop]
  | cons c rest ih =>
    intro i ctr
    by_cases h : recentCutoff - c.signup_date ≤ 30
    · have hf : ¬ (30 < recentCutoff - c.signup_date) := by omega
      simp only [histChurnLoop, if_pos h, List.filter_cons]
      rw [if_neg (by simpa using hf)]
      exact ih (i + 1) ctr
    · have h30 : 30 < recentCutoff - c.signup_date := by omega
      have hdiv : (recentCutoff - c.signup_date) / 4 ≤ recentCutoff - c.signup_date :=
        Int.ediv_le_self 4 (by omega)
      have hmax : max 30 ((recentCutoff - c.signup_date) / 4) ≤ recentCutoff - c.signup_date :=
        max_le (by omega) hdiv
      simp only [histChurnLoop, if_neg h, List.filter_cons]
      rw [if_pos (by simpa using h30)]
      refine List.Forall₂.cons ⟨rfl, ?_, ?_, ?_, rfl, ?_⟩ (ih (i + 1) (ctr + 1))
      · exact le_trans (le_max_left _ _) (pyRandint_lower _ _ _)
      · exact pyRandint_lower _ _ _
      · exact pyRandint_upper _ hmax
      · have hu := pyRandint_upper (O.histDayEnt i) hmax
        show c.signup_date + pyRandint (O.histDayEnt i)
            (max 30 ((recentCutoff - c.signup_date) / 4)) (recentCutoff - c.signup_date) ≤
          recentCutoff
        omega

theorem histChurnLoop_length (O : ChurnOracle) (l : List Customer) (i ctr : Nat) :
    (histChurnLoop O l i ctr).length =
      (l.filter fun c => decide (30 < recentCutoff - c.signup_date)).length :=
  (histChurnLoop_forall₂ O l i ctr).length_eq

theorem histChurnLoop_eq_nil (O : ChurnOracle) {l : List Customer} (i ctr : Nat)
    (h : ∀ c ∈ l, recentCutoff - c.signup_date ≤ 30) : histChurnLoop O l i ctr = [] := by
  have hf : (l.filter fun c => decide (30 < recentCutoff - c.signup_date)) = [] := by
    rw [List.filter_eq_nil_iff]
    intro c hc
    have := h c hc
    simp only [decide_eq_true_eq]
    omega
  have := histChurnLoop_length O l i ctr
  rw [hf] at this
  exact List.length_eq_zero.mp this

theorem histChurnLoop_map_cid_sublist (O : ChurnOracle) :
    ∀ (l : List Customer) (i ctr : Nat),
      ((histChurnLoop O l i ctr).map ChurnEvent.customer_id).Sublist
        (l.map Customer.customer_id) := by
  intro l
  induction l with
  | nil => intro i ctr; simp [histChurnLoop]
  | cons c rest ih =>
    intro i ctr
    by_cases h : recentCutoff - c.signup_date ≤ 30
    · simp only [histChurnLoop, if_pos h, List.map_cons]
      exact (ih (i + 1) ctr).cons _
    · simp only [histChurnLoop, if_neg h, List.map_cons]
      exact (ih (i + 1) (ctr + 1)).cons₂ _

theorem recentChurnLoop_forall₂ (O : ChurnOracle) :
    ∀ (l : List Customer) (i ctr : Nat),
      List.Forall₂ (fun (e : ChurnEvent) (c : Customer) =>
          e.customer_id = c.customer_id ∧
          recentCutoff ≤ e.churn_date ∧
          e.churn_date ≤ globalEndDate ∧
          e.days_since_signup = e.churn_date - c.signup_date)
        (recentChurnLoop O l i ctr) l := by
  intro l
  induction l with
  | nil => intro i ctr; simp [recentChurnLoop]
  | cons c rest ih =>
    intro i ctr
    simp only [recentChurnLoop]
    refine List.Forall₂.cons ⟨rfl, ?_, ?_, rfl⟩ (ih (i + 1) (ctr + 1))
    · have h0 := pyRandint_lower (O.recentDayEnt i) 0 (globalEndDate - recentCutoff)
      show recentCutoff ≤
        recentCutoff + pyRandint (O.recentDayEnt i) 0 (globalEndDate - recentCutoff)
      omega
    · have hu := @pyRandint_upper (O.recentDayEnt i)
        (0 : Int) (globalEndDate - recentCutoff)
        (by simp [globalEndDate, recentCutoff])
      show recentCutoff + pyRandint (O.recentDayEnt i) 0 (globalEndDate - recentCutoff) ≤
        globalEndDate
      omega

theorem recentChurnLoop_length (O : ChurnOracle) (l : List Customer) (i ctr : Nat) :
    (recentChurnLoop O l i ctr).length = l.length :=
  (recentChurnLoop_forall₂ O l i ctr).length_eq

theorem recentChurnLoop_map_cid (O : ChurnOracle) :
    ∀ (l : List Customer) (i ctr : Nat),
      (recentChurnLoop O l i ctr).map ChurnEvent.customer_id =
        l.map Customer.customer_id := by
  intro l
  induction l with
  | nil => intro i ctr; simp [recentChurnLoop]
  | cons c rest ih =>
    intro i ctr
    simp only [recentChurnLoop, List.map_cons]
    rw [ih (i + 1) (ctr + 1)]

theorem historical_churned_subperm (O : ChurnOracle) (cs : List Customer) :
    (historical_churned O cs).Subperm (historical_customers cs) :=
  pySample_subperm _ _ _

theorem recent_churned_subperm (O : ChurnOracle) (cs : List Customer) :
    (recent_churned O cs).Subperm (eligible_for_recent_churn O cs) :=
  pySample_subperm _ _ _

theorem historical_customers_subset (cs : List Customer) :
    ∀ c ∈ historical_customers cs, c ∈ cs := by
  intro c hc
  simp only [historical_customers] at hc
  exact List.mem_of_mem_filter hc

theorem eligible_mem_historical (O : ChurnOracle) (cs : List Customer) :
    ∀ c ∈ eligible_for_recent_churn O cs, c ∈ historical_customers cs := by
  intro c hc
  simp only [eligible_for_recent_churn] at hc
  exact List.mem_of_mem_filter hc

theorem eligible_not_churned (O : ChurnOracle) (cs : List Customer) :
    ∀ c ∈ eligible_for_recent_churn O cs, c ∉ historical_churned O cs := by
  intro c hc
  simp only [eligible_for_recent_churn, List.mem_filter, decide_eq_true_eq] at hc
  exact hc.2

theorem generate_churn_events_cid_mem (O : ChurnOracle) (cs : List Customer) :
    ∀ e ∈ generate_churn_events O cs, ∃ c ∈ cs, e.customer_id = c.customer_id := by
  intro e he
  simp only [generate_churn_events, List.mem_append] at he
  rcases he with he | he
  · have h1 : e.customer_id ∈
        (histChurnLoop O (historical_churned O cs) 0 1).map ChurnEvent.customer_id :=
      List.mem_map_of_mem _ he
    have h2 := (histChurnLoop_map_cid_sublist O (historical_churned O cs) 0 1).subset h1
    obtain ⟨c, hc, hcid⟩ := List.mem_map.mp h2
    have hc2 : c ∈ historical_customers cs := (historical_churned_subperm O cs).subset hc
    exact ⟨c, historical_customers_subset cs c hc2, hcid.symm⟩
  · have h1 : e.customer_id ∈
        (recentChurnLoop O (recent_churned O cs) 0 _).map ChurnEvent.customer_id :=
      List.mem_map_of_mem _ he
    rw [recentChurnLoop_map_cid] at h1
    obtain ⟨c, hc, hcid⟩ := List.mem_map.mp h1
    have hc2 : c ∈ eligible_for_recent_churn O cs := (recent_churned_subperm O cs).subset hc
    exact ⟨c, historical_customers_subset cs c (eligible_mem_historical O cs c hc2), hcid.symm⟩

theorem generate_churn_events_cid_nodup (O : ChurnOracle) {cs : List Customer}
    (h : (cs.map Customer.customer_id).Nodup) :
    ((generate_churn_events O cs).map ChurnEvent.customer_id).Nodup := by
  have hhist_cid : ((historical_customers cs).map Customer.customer_id).Sublist
      (cs.map Customer.customer_id) := (List.filter_sublist cs).map _
  have hhist_cid_nd := hhist_cid.nodup h
  have hchurned_cid := subperm_map Customer.customer_id (historical_churned_subperm O cs)
  have hchurned_cid_nd := subperm_nodup hchurned_cid hhist_cid_nd
  have he_sub := histChurnLoop_map_cid_sublist O (historical_churned O cs) 0 1
  have he_nd := he_sub.nodup hchurned_cid_nd
  have helig_cid : ((eligible_for_recent_churn O cs).map Customer.customer_id).Sublist
      ((historical_customers cs).map Customer.customer_id) :=
    (List.filter_sublist _).map _
  have helig_cid_nd := helig_cid.nodup hhist_cid_nd
  have hre_cid := subperm_map Customer.customer_id (recent_churned_subperm O cs)
  have hre_cid_nd := subperm_nodup hre_cid helig_cid_nd
  have hre_nd : ((recentChurnLoop O (recent_churned O cs) 0
      (1 + (histChurnLoop O (historical_churned O cs) 0 1).length)).map
        ChurnEvent.customer_id).Nodup := by
    rw [recentChurnLoop_map_cid]
    exact hre_cid_nd
  have hinj := List.inj_on_of_nodup_map h
  have hdisj : ((histChurnLoop O (historical_churned O cs) 0 1).map
      ChurnEvent.customer_id).Disjoint
      ((recentChurnLoop O (recent_churned O cs) 0
        (1 + (histChurnLoop O (historical_churned O cs) 0 1).length)).map
          ChurnEvent.customer_id) := by
    rw [recentChurnLoop_map_cid]
    intro a ha hb
    have ha2 := he_sub.subset ha
    obtain ⟨c, hc, hcid⟩ := List.mem_map.mp ha2
    obtain ⟨c2, hc2, hcid2⟩ := List.mem_map.mp hb
    have hc_hist : c ∈ historical_customers cs := (historical_churned_subperm O cs).subset hc
    have hc_cs : c ∈ cs := historical_customers_subset cs c hc_hist
    have hc2_elig : c2 ∈ eligible_for_recent_churn O cs :=
      (recent_churned_subperm O cs).subset hc2
    have hc2_not : c2 ∉ historical_churned O cs := eligible_not_churned O cs c2 hc2_elig
    have hc2_cs : c2 ∈ cs :=
      historical_customers_subset cs c2 (eligible_mem_historical O cs c2 hc2_elig)
    have : c = c2 := hinj hc_cs hc2_cs (by rw [hcid, hcid2])
    exact hc2_not (this ▸ hc)
  simp only [generate_churn_events, List.map_append]
  exact he_nd.append hre_nd hdisj

/-! ### Structural lemmas about usage events and support tickets -/

theorem plan_features_ne_nil (p : PlanType) : plan_features p ≠ [] := by
  cases p <;> simp [plan_features, features]

theorem usageInner_mem (O : UsageOracle) (i : Nat) (c : Customer) {days_active : Int}
    (h : 0 ≤ days_active) :
    ∀ (js : List Nat) (ctr : Nat), ∀ e ∈ usageInner O i c days_active js ctr,
      e.customer_id = c.customer_id ∧
      e.feature_used ∈ plan_features c.plan_type ∧
      c.signup_date ≤ e.event_date ∧
      e.event_date ≤ c.signup_date + days_active := by
  intro js
  induction js with
  | nil => intro ctr e he; simp [usageInner] at he
  | cons j rest ih =>
    intro ctr e he
    simp only [usageInner, List.mem_cons] at he
    rcases he with rfl | he
    · refine ⟨rfl, ?_, ?_, ?_⟩
      · exact pyChoice_mem _ _ (plan_features_ne_nil c.plan_type)
      · have := pyRandint_lower (O.dayEnt i j) 0 days_active
        show c.signup_date ≤ c.signup_date + pyRandint (O.dayEnt i j) 0 days_active
        omega
      · have := @pyRandint_upper (O.dayEnt i j) (0 : Int) days_active h
        show c.signup_date + pyRandint (O.dayEnt i j) 0 days_active ≤
          c.signup_date + days_active
        omega
    · exact ih (ctr + 1) e he

theorem usageOuter_mem (O : UsageOracle) (avg : Nat) (now : Int) :
    ∀ (l : List (Nat × Customer)) (ctr : Nat), ∀ e ∈ usageOuter O avg now l ctr,
      ∃ ic ∈ l, e.customer_id = ic.2.customer_id ∧
        e.feature_used ∈ plan_features ic.2.plan_type ∧
        ic.2.signup_date ≤ e.event_date ∧
        e.event_date ≤ min globalEndDate now := by
  intro l
  induction l with
  | nil => intro ctr e he; simp [usageOuter] at he
  | cons ic rest ih =>
    intro ctr e he
    obtain ⟨i, c⟩ := ic
    by_cases hd : min globalEndDate now - c.signup_date ≤ 0
    · simp only [usageOuter, if_pos hd] at he
      obtain ⟨p, hp, hprops⟩ := ih ctr e he
      exact ⟨p, List.mem_cons_of_mem _ hp, hprops⟩
    · simp only [usageOuter, if_neg hd, List.mem_append] at he
      rcases he with he | he
      · have hnn : (0 : Int) ≤ min globalEndDate now - c.signup_date := by omega
        obtain ⟨h1, h2, h3, h4⟩ := usageInner_mem O i c hnn _ _ e he
        exact ⟨(i, c), List.mem_cons_self _ _, h1, h2, h3, by omega⟩
      · obtain ⟨p, hp, hprops⟩ := ih _ e he
        exact ⟨p, List.mem_cons_of_mem _ hp, hprops⟩

theorem usageOuter_skip (O : UsageOracle) (avg : Nat) (now : Int) (i : Nat) (c : Customer)
    (rest : List (Nat × Customer)) (ctr : Nat)
    (h : min globalEndDate now - c.signup_date ≤ 0) :
    usageOuter O avg now ((i, c) :: rest) ctr = usageOuter O avg now rest ctr := by
  simp only [usageOuter, if_pos h]

theorem priority_hours_ge_two (p : Priority) : 2 ≤ priority_hours p := by
  cases p <;> norm_num [priority_hours]

theorem ticketCore_fields {O : TicketsOracle} {i j : Nat} {c : Customer} {ctr : Nat}
    (hr : 0 ≤ O.resR i j) {t : SupportTicket} (ht : ticketCore O i j c ctr = some t) :
    ((t.status = .resolved ∨ t.status = .closed) →
        ∃ h, t.resolution_time_hours = some h ∧ 0 < h) ∧
      (t.status = .pending →
        t.resolution_time_hours = none ∧ t.satisfaction_score = none) := by
  by_cases hd : globalEndDate - c.signup_date ≤ 0
  · simp [ticketCore, hd] at ht
  · rw [ticketCore] at ht
    rw [if_neg hd] at ht
    have ht2 := Option.some.inj ht
    subst ht2
    constructor
    · intro hst
      simp only at hst ⊢
      rw [if_pos hst]
      refine ⟨_, rfl, ?_⟩
      have hu : (1 : ℚ) / 2 ≤ pyUniform (O.resR i j) 0.5 2.0 := by
        simp only [pyUniform]
        nlinarith
      have hq : (1 : ℚ) ≤
          priority_hours (pyWeightedChoice (O.priEnt i j) priorities priority_weights .low) *
            pyUniform (O.resR i j) 0.5 2.0 := by
        have h2 := priority_hours_ge_two
          (pyWeightedChoice (O.priEnt i j) priorities priority_weights .low)
        nlinarith
      rw [pyInt_of_nonneg (by linarith)]
      have hfl : (1 : Int) ≤
          ⌊priority_hours (pyWeightedChoice (O.priEnt i j) priorities priority_weights .low) *
            pyUniform (O.resR i j) 0.5 2.0⌋ :=
        Int.le_floor.mpr (by exact_mod_cast hq)
      omega
    · intro hp
      simp only at hp ⊢
      have hne : ¬ (pyWeightedChoice (O.statEnt i j) statuses status_weights
          TicketStatus.resolved = TicketStatus.resolved ∨
        pyWeightedChoice (O.statEnt i j) statuses status_weights
          TicketStatus.resolved = TicketStatus.closed) := by
        rw [hp]
        simp
      rw [if_neg hne, if_neg hne]
      exact ⟨rfl, rfl⟩

theorem ticketsInner_mem (O : TicketsOracle) (i : Nat) (c : Customer) :
    ∀ (js : List Nat) (ctr : Nat), ∀ t ∈ ticketsInner O i c js ctr,
      ∃ j ctr2, ticketCore O i j c ctr2 = some t := by
  intro js
  induction js with
  | nil => intro ctr t htm; simp [ticketsInner] at htm
  | cons j rest ih =>
    intro ctr t htm
    rw [ticketsInner] at htm
    cases hc : ticketCore O i j c ctr with
    | none => rw [hc] at htm; exact ih ctr t htm
    | some t0 =>
      rw [hc] at htm
      rcases List.mem_cons.mp htm with rfl | htm2
      · exact ⟨j, ctr, hc⟩
      · exact ih (ctr + 1) t htm2

theorem ticketsOuter_mem (O : TicketsOracle) :
    ∀ (l : List (Nat × Customer)) (ctr : Nat), ∀ t ∈ ticketsOuter O l ctr,
      ∃ i j c ctr2, ticketCore O i j c ctr2 = some t := by
  intro l
  induction l with
  | nil => intro ctr t htm; simp [ticketsOuter] at htm
  | cons ic rest ih =>
    intro ctr t htm
    obtain ⟨i, c⟩ := ic
    rw [ticketsOuter] at htm
    by_cases hz : O.poisson i = 0
    · rw [if_pos hz] at htm
      exact ih ctr t htm
    · rw [if_neg hz] at htm
      rcases List.mem_append.mp htm with htm2 | htm2
      · obtain ⟨j, ctr2, hcore⟩ := ticketsInner_mem O i c _ _ t htm2
        exact ⟨i, j, c, ctr2, hcore⟩
      · exact ih _ t htm2

/-! ### Counting lemmas for the churn generator -/

theorem historical_churn_count_le (n : Nat) : historical_churn_count n ≤ n := by
  have h0 : (0 : ℚ) ≤ (n : ℚ) * 0.03 := by positivity
  have h1 : (n : ℚ) * 0.03 ≤ (n : ℚ) := by
    nlinarith [@Nat.cast_nonneg ℚ _ n]
  simp only [historical_churn_count, pyInt_of_nonneg h0]
  rw [Int.toNat_le]
  calc ⌊(n : ℚ) * 0.03⌋ ≤ ⌊(n : ℚ)⌋ := Int.floor_mono h1
    _ = (n : Int) := Int.floor_natCast n

theorem recent_churn_count_le (n : Nat) : recent_churn_count n ≤ n := by
  have h0 : (0 : ℚ) ≤ (n : ℚ) * 0.05 := by positivity
  have h1 : (n : ℚ) * 0.05 ≤ (n : ℚ) := by
    nlinarith [@Nat.cast_nonneg ℚ _ n]
  simp only [recent_churn_count, pyInt_of_nonneg h0]
  rw [Int.toNat_le]
  calc ⌊(n : ℚ) * 0.05⌋ ≤ ⌊(n : ℚ)⌋ := Int.floor_mono h1
    _ = (n : Int) := Int.floor_natCast n

theorem historical_churned_length (O : ChurnOracle) (cs : List Customer) :
    (historical_churned O cs).length =
      historical_churn_count (historical_customers cs).length := by
  have h := pySample_length O.histSampEnt
    (historical_churn_count (historical_customers cs).length) (historical_customers cs)
  have hle := historical_churn_count_le (historical_customers cs).length
  simpa [historical_churned, Nat.min_eq_left hle] using h

theorem eligible_length (O : ChurnOracle) {cs : List Customer} (h : cs.Nodup) :
    (eligible_for_recent_churn O cs).length =
      (historical_customers cs).length -
        historical_churn_count (historical_customers cs).length := by
  have hh : (historical_customers cs).Nodup := (List.filter_sublist cs).nodup h
  have hs := historical_churned_subperm O cs
  have := length_filter_not_mem_of_subperm hh hs
  rw [historical_churned_length O cs] at this
  simpa [eligible_for_recent_churn] using this

theorem recent_churned_length (O : ChurnOracle) {cs : List Customer} (h : cs.Nodup) :
    (recent_churned O cs).length =
      recent_churn_count ((historical_customers cs).length -
        historical_churn_count (historical_customers cs).length) := by
  have hlen := pySample_length O.recentSampEnt
    (min (recent_churn_count (eligible_for_recent_churn O cs).length)
      (eligible_for_recent_churn O cs).length)
    (eligible_for_recent_churn O cs)
  have hle := recent_churn_count_le (eligible_for_recent_churn O cs).length
  have : (recent_churned O cs).length =
      recent_churn_count (eligible_for_recent_churn O cs).length := by
    simpa [recent_churned, Nat.min_eq_left hle, Nat.min_eq_left (Nat.min_le_right _ _),
      Nat.min_assoc] using hlen
  rw [this, eligible_length O h]

theorem usageOuter_clamped (O : UsageOracle) (avg : Nat) {now : Int}
    (h : globalEndDate ≤ now) :
    ∀ (l : List (Nat × Customer)) (ctr : Nat),
      usageOuter O avg now l ctr = usageOuter O avg globalEndDate l ctr := by
  intro l
  induction l with
  | nil => intro ctr; rfl
  | cons ic rest ih =>
    intro ctr
    obtain ⟨i, c⟩ := ic
    simp only [usageOuter, min_eq_left h, min_self]
    by_cases hd : globalEndDate - c.signup_date ≤ 0
    · rw [if_pos hd, if_pos hd]
      exact ih ctr
    · rw [if_neg hd, if_neg hd, ih]


theorem pySample_nil (ent : Nat → Nat) (k : Nat) : pySample ent ([] : List α) k = [] := by
  cases k <;> rfl

theorem eraseIdx_replicate (a : α) (n j : Nat) (h : j < n + 1) :
    (List.replicate (n + 1) a).eraseIdx j = List.replicate n a := by
  rw [List.eq_replicate_iff]
  constructor
  · rw [List.length_eraseIdx]
    simp [h]
  · intro b hb
    exact List.eq_of_mem_replicate ((List.eraseIdx_sublist _ j).subset hb)

theorem pySample_replicate (ent : Nat → Nat) (a : α) :
    ∀ (k n : Nat), pySample ent (List.replicate n a) k = List.replicate (min k n) a := by
  intro k
  induction k with
  | zero => intro n; simp [pySample]
  | succ k ih =>
    intro n
    match n with
    | 0 => simp [pySample, List.replicate]
    | n + 1 =>
      rw [List.replicate_succ]
      simp only [pySample]
      have hget : (a :: List.replicate n a).get
          ⟨ent k % (a :: List.replicate n a).length, Nat.mod_lt _ (Nat.succ_pos _)⟩ = a := by
        have hmem := List.get_mem (a :: List.replicate n a)
          (ent k % (a :: List.replicate n a).length) (Nat.mod_lt _ (Nat.succ_pos _))
        rcases List.mem_cons.mp hmem with h | h
        · exact h
        · exact List.eq_of_mem_replicate h
      have herase : (a :: List.replicate n a).eraseIdx
          (ent k % (a :: List.replicate n a).length) = List.replicate n a := by
        rw [← List.replicate_succ]
        refine eraseIdx_replicate a n _ ?_
        have := Nat.mod_lt (ent k) (Nat.succ_pos n)
        simpa using this
      rw [hget, herase, ih n, ← List.replicate_succ]
      congr 1
      omega

theorem histChurnLoop_map_cid_of_tenure (O : ChurnOracle) {l : List Customer}
    (h : ∀ c ∈ l, 30 < recentCutoff - c.signup_date) (i ctr : Nat) :
    (histChurnLoop O l i ctr).map ChurnEvent.customer_id =
      l.map Customer.customer_id := by
  have hfil : (l.filter fun c => decide (30 < recentCutoff - c.signup_date)) = l :=
    List.filter_eq_self.mpr fun c hc => by simpa using h c hc
  have hlen : (histChurnLoop O l i ctr).length = l.length := by
    rw [histChurnLoop_length, hfil]
  exact (histChurnLoop_map_cid_sublist O l i ctr).eq_of_length (by simpa using hlen)

theorem usageInner_length (O : UsageOracle) (i : Nat) (c : Customer) (days_active : Int) :
    ∀ (js : List Nat) (ctr : Nat), (usageInner O i c days_active js ctr).length = js.length := by
  intro js
  induction js with
  | nil => intro ctr; rfl
  | cons j rest ih => intro ctr; simp [usageInner, ih]

/-! ### The claims -/

/-- Claim C8: every without-replacement draw in the pipeline requests at most the
size of its population — the ticket subset is clamped by `min` with the customer
count, the baseline draw requests `int(0.03 * n) ≤ n`, and the churn-spike draw is
clamped by `min` with the eligible-pool size — and consequently each performed
sample returns exactly the requested number of elements, so no draw can fail on
any input customer list. -/
theorem claim_C8_sampling_bounds (cs : List Customer) (Ot : TicketsOracle)
    (Oe : ChurnOracle) :
    (min cs.length 3000 ≤ cs.length ∧
      (customers_with_tickets Ot cs).length = min cs.length 3000) ∧
    (historical_churn_count (historical_customers cs).length ≤
        (historical_customers cs).length ∧
      (historical_churned Oe cs).length =
        historical_churn_count (historical_customers cs).length) ∧
    (min (recent_churn_count (eligible_for_recent_churn Oe cs).length)
        (eligible_for_recent_churn Oe cs).length ≤
        (eligible_for_recent_churn Oe cs).length ∧
      (recent_churned Oe cs).length =
        min (recent_churn_count (eligible_for_recent_churn Oe cs).length)
          (eligible_for_recent_churn Oe cs).length) := by
  refine ⟨⟨Nat.min_le_left _ _, ?_⟩,
    ⟨historical_churn_count_le _, historical_churned_length Oe cs⟩,
    ⟨Nat.min_le_right _ _, ?_⟩⟩
  · have hlen := pySample_length Ot.sampEnt (min cs.length 3000) cs
    simpa [customers_with_tickets, Nat.min_eq_left (Nat.min_le_left cs.length 3000)]
      using hlen
  · have hlen := pySample_length Oe.recentSampEnt
      (min (recent_churn_count (eligible_for_recent_churn Oe cs).length)
        (eligible_for_recent_churn Oe cs).length)
      (eligible_for_recent_churn Oe cs)
    simpa [recent_churned, Nat.min_eq_left (Nat.min_le_right
      (recent_churn_count (eligible_for_recent_churn Oe cs).length)
      (eligible_for_recent_churn Oe cs).length)] using hlen

/-- Claim C5: the baseline churn loop pairs its events one-to-one and in order
with exactly the sampled historical customers whose tenure at the cutoff
exceeds 30 days (so a customer with tenure ≤ 30 is skipped and yields no event),
and each emitted event has `days_since_signup` in
`[max(30, tenure // 4), tenure]` — hence at least 30 — and
`churn_date = signup_date + days_since_signup ≤ recent_cutoff`. -/
theorem claim_C5_baseline_churn (O : ChurnOracle) (cs : List Customer) :
    List.Forall₂ (fun (e : ChurnEvent) (c : Customer) =>
        e.customer_id = c.customer_id ∧
        30 ≤ e.days_since_signup ∧
        max 30 ((recentCutoff - c.signup_date) / 4) ≤ e.days_since_signup ∧
        e.days_since_signup ≤ recentCutoff - c.signup_date ∧
        e.churn_date = c.signup_date + e.days_since_signup ∧
        e.churn_date ≤ recentCutoff)
      (histChurnLoop O (historical_churned O cs) 0 1)
      ((historical_churned O cs).filter fun c =>
        decide (30 < recentCutoff - c.signup_date)) :=
  histChurnLoop_forall₂ O (historical_churned O cs) 0 1

/-- Claim C6: every usage event references a customer of the input list, uses a
feature unlocked by that customer's plan tier, and is dated between the
customer's signup date and the global end date 2024-10-01; a customer whose
active-day span is not positive contributes no events (the loop skips them). -/
theorem claim_C6_usage_bounds (O : UsageOracle) (customers_data : List Customer)
    (avg : Nat) (now : Int) :
    (∀ e ∈ generate_usage_events O customers_data avg now,
      ∃ c ∈ customers_data, e.customer_id = c.customer_id ∧
        e.feature_used ∈ plan_features c.plan_type ∧
        c.signup_date ≤ e.event_date ∧ e.event_date ≤ globalEndDate) ∧
    (∀ (i : Nat) (c : Customer) (rest : List (Nat × Customer)) (ctr : Nat),
      min globalEndDate now - c.signup_date ≤ 0 →
        usageOuter O avg now ((i, c) :: rest) ctr = usageOuter O avg now rest ctr) := by
  constructor
  · intro e he
    simp only [generate_usage_events] at he
    obtain ⟨ic, hic, h1, h2, h3, h4⟩ := usageOuter_mem O avg now _ 1 e he
    have hmem : ic.2 ∈ customers_data := by
      have := List.mem_map_of_mem Prod.snd hic
      rwa [List.enum_map_snd] at this
    exact ⟨ic.2, hmem, h1, h2, h3, le_trans h4 (min_le_left _ _)⟩
  · exact fun i c rest ctr hle => usageOuter_skip O avg now i c rest ctr hle

/-- Claim C6, witness: at a concrete oracle and a one-customer list the first
conjunct holds of every generated event, and a customer signed up on the window
end (zero active days) is skipped by the loop. -/
theorem claim_C6_witness :
    List.Forall
      (fun e => ∃ c ∈ flatCustomers 1, e.customer_id = c.customer_id ∧
        e.feature_used ∈ plan_features c.plan_type ∧
        c.signup_date ≤ e.event_date ∧ e.event_date ≤ globalEndDate)
      (generate_usage_events usageOracle500 (flatCustomers 1) 50 1004) ∧
    usageOuter usageOracle500 50 1004
        ((0, { customer_id := 1, signup_date := 1004, plan_type := .starter,
               company_size := .small, industry := "technology", status := .active,
               monthly_revenue := 29 }) :: []) 1 =
      usageOuter usageOracle500 50 1004 [] 1 :=
  ⟨List.forall_iff_forall_mem.mpr
      (claim_C6_usage_bounds usageOracle500 (flatCustomers 1) 50 1004).1,
    (claim_C6_usage_bounds usageOracle500 (flatCustomers 1) 50 1004).2 0
      { customer_id := 1, signup_date := 1004, plan_type := .starter,
        company_size := .small, industry := "technology", status := .active,
        monthly_revenue := 29 } [] 1 (by norm_num [globalEndDate])⟩

/-- Claim C7: in every generated support ticket, a `resolved` or `closed` status
comes with a present, strictly positive resolution time, and a `pending` status
comes with absent resolution time and absent satisfaction score.  The raw
`random()` draws feeding `random.uniform(0.5, 2.0)` are nonnegative. -/
theorem claim_C7_ticket_fields (O : TicketsOracle) (customers_data : List Customer)
    (avg : Nat) (hr : ∀ i j, 0 ≤ O.resR i j) :
    ∀ t ∈ generate_support_tickets O customers_data avg,
      ((t.status = TicketStatus.resolved ∨ t.status = TicketStatus.closed) →
        ∃ h, t.resolution_time_hours = some h ∧ 0 < h) ∧
      (t.status = TicketStatus.pending →
        t.resolution_time_hours = none ∧ t.satisfaction_score = none) := by
  intro t htm
  simp only [generate_support_tickets] at htm
  obtain ⟨i, j, c, ctr2, hcore⟩ := ticketsOuter_mem O _ _ t htm
  exact ticketCore_fields (hr i j) hcore

/-- Claim C7, witness: the property instantiated at a concrete oracle (whose raw
uniform draws are all 0) over a concrete one-customer list that does produce
tickets. -/
theorem claim_C7_witness :
    List.Forall
      (fun t => ((t.status = TicketStatus.resolved ∨ t.status = TicketStatus.closed) →
          ∃ h, t.resolution_time_hours = some h ∧ 0 < h) ∧
        (t.status = TicketStatus.pending →
          t.resolution_time_hours = none ∧ t.satisfaction_score = none))
      (generate_support_tickets ticketsOracleTwo (flatCustomers 1) 3) :=
  List.forall_iff_forall_mem.mpr
    (claim_C7_ticket_fields ticketsOracleTwo (flatCustomers 1) 3 fun _ _ => le_refl 0)

/-- Claim C3: after the full generation run (generated customers, generated churn
events, then the churned-status update of `insert_churn_events_data`), a customer
referenced by some churn event has status `churned`, a customer referenced by no
churn event has status `active`, and each churn event owns exactly one customer
record — the single record its `UPDATE ... WHERE customer_id IN (...)` mutation
touches. -/
theorem claim_C3_status_update (Oc : CustomersOracle) (Oe : ChurnOracle) (n : Nat) :
    (∀ c ∈ updateChurnedStatus (generate_customers_data Oc n)
        (generate_churn_events Oe (generate_customers_data Oc n)),
      ((∃ e ∈ generate_churn_events Oe (generate_customers_data Oc n),
          e.customer_id = c.customer_id) → c.status = CustStatus.churned) ∧
      ((∀ e ∈ generate_churn_events Oe (generate_customers_data Oc n),
          e.customer_id ≠ c.customer_id) → c.status = CustStatus.active)) ∧
    (∀ e ∈ generate_churn_events Oe (generate_customers_data Oc n),
      ((updateChurnedStatus (generate_customers_data Oc n)
          (generate_churn_events Oe (generate_customers_data Oc n))).countP
        fun c => decide (c.customer_id = e.customer_id)) = 1) := by
  constructor
  · intro c hc
    simp only [updateChurnedStatus, List.mem_map] at hc
    obtain ⟨c0, hc0, rfl⟩ := hc
    have hcid : (if (generate_churn_events Oe (generate_customers_data Oc n)).any
        (fun e => e.customer_id == c0.customer_id) then
          { c0 with status := CustStatus.churned } else c0).customer_id =
        c0.customer_id := by
      split <;> rfl
    constructor
    · rintro ⟨e, he, heq⟩
      rw [hcid] at heq
      have hany : (generate_churn_events Oe (generate_customers_data Oc n)).any
          (fun e => e.customer_id == c0.customer_id) = true :=
        List.any_eq_true.mpr ⟨e, he, by simpa using heq⟩
      rw [if_pos hany]
    · intro hnone
      have hany : ¬ ((generate_churn_events Oe (generate_customers_data Oc n)).any
          (fun e => e.customer_id == c0.customer_id) = true) := by
        intro hany
        obtain ⟨e, he, heq⟩ := List.any_eq_true.mp hany
        exact hnone e he (by rw [hcid]; simpa using heq)
      rw [if_neg hany]
      exact generate_customers_status Oc n c0 hc0
  · intro e he
    rw [updateChurnedStatus, List.countP_map]
    have hcong : ((fun c => decide (c.customer_id = e.customer_id)) ∘
        fun c => if (generate_churn_events Oe (generate_customers_data Oc n)).any
          (fun e2 => e2.customer_id == c.customer_id) then
            { c with status := CustStatus.churned } else c) =
        fun c : Customer => decide (c.customer_id = e.customer_id) := by
      funext c
      simp only [Function.comp_apply]
      congr 1
      split <;> rfl
    rw [hcong]
    have hmem : e.customer_id ∈ (generate_customers_data Oc n).map Customer.customer_id := by
      obtain ⟨c1, hc1, hcid⟩ := generate_churn_events_cid_mem Oe _ e he
      exact List.mem_map.mpr ⟨c1, hc1, hcid.symm⟩
    rw [← count_map_eq_countP Customer.customer_id (generate_customers_data Oc n)
      e.customer_id]
    exact List.count_eq_one_of_mem (generate_customers_cid_nodup Oc n) hmem

/-- Claim C2 (amended): for every input customer list whose `customer_id`s are
pairwise distinct — true of every list the pipeline generates — no customer id
appears in more than one churn event: the baseline draw is without replacement
and the spike draw samples only the complement of the baseline set.  (On a list
with duplicated entries the two baseline draws can pick two copies of the same
customer, which the counterexample exhibits.) -/
theorem claim_C2_each_customer_churns_once (O : ChurnOracle) {cs : List Customer}
    (h : (cs.map Customer.customer_id).Nodup) :
    ((generate_churn_events O cs).map ChurnEvent.customer_id).Nodup :=
  generate_churn_events_cid_nodup O h

/-- Claim C2, witness: on seventy distinct customers signed up well before the
cutoff (baseline draw of 2, spike draw of 3) all five churn events carry
distinct customer ids. -/
theorem claim_C2_witness :
    ((generate_churn_events zeroChurnOracle (flatCustomers 70)).map
      ChurnEvent.customer_id).Nodup :=
  claim_C2_each_customer_churns_once zeroChurnOracle (by decide)


/-- Claim C2, counterexample: on an input list of 67 identical customer records
(`random.sample` draws distinct positions, not distinct values) the baseline
draw `int(67 * 0.03) = 2` picks two copies of the same customer and emits two
churn events bearing the same `customer_id`, so the claim as stated — for
arbitrary input customer lists — is false. -/
theorem claim_C2_counterexample :
    ¬ ((generate_churn_events zeroChurnOracle (List.replicate 67 (flatCustomer 0))).map
      ChurnEvent.customer_id).Nodup := by
  have hhist : historical_customers (List.replicate 67 (flatCustomer 0)) =
      List.replicate 67 (flatCustomer 0) := by
    rw [historical_customers, List.filter_eq_self]
    intro a ha
    rw [List.eq_of_mem_replicate ha]
    decide
  have hcount : historical_churn_count 67 = 2 := by
    rw [historical_churn_count, pyInt_of_nonneg (by norm_num)]
    have hfl : ⌊((67 : Nat) : ℚ) * 0.03⌋ = 2 := by
      rw [Int.floor_eq_iff]
      constructor <;> norm_num
    rw [hfl]
    rfl
  have hsample : historical_churned zeroChurnOracle (List.replicate 67 (flatCustomer 0)) =
      List.replicate 2 (flatCustomer 0) := by
    rw [historical_churned, hhist, List.length_replicate, hcount, pySample_replicate]
    rfl
  have hids : ((histChurnLoop zeroChurnOracle (List.replicate 2 (flatCustomer 0)) 0 1).map
      ChurnEvent.customer_id) = [1, 1] := by
    rw [histChurnLoop_map_cid_of_tenure]
    · rfl
    · intro c hc
      rw [List.eq_of_mem_replicate hc]
      decide
  have helig : eligible_for_recent_churn zeroChurnOracle
      (List.replicate 67 (flatCustomer 0)) = [] := by
    rw [eligible_for_recent_churn, hhist, hsample, List.filter_eq_nil_iff]
    intro a ha
    rw [List.eq_of_mem_replicate ha]
    simp [List.mem_replicate]
  have hre : recent_churned zeroChurnOracle (List.replicate 67 (flatCustomer 0)) = [] := by
    rw [recent_churned, helig]
    exact pySample_nil _ _
  intro hnd
  rw [generate_churn_events, hsample, hre] at hnd
  rw [List.map_append, hids] at hnd
  simp only [recentChurnLoop, List.map_nil, List.append_nil] at hnd
  exact (by decide : ¬ ([1, 1] : List Nat).Nodup) hnd

/-- Claim C1 (amended): for an input list with pairwise-distinct customer ids,
the total number of churn events equals
`int(hist * 0.03) - s + int((hist - int(hist * 0.03)) * 0.05)`, where `hist` is
the historical-cohort size and `s` is the number of baseline-sampled customers
whose tenure at the cutoff is at most 30 days (the loop skips them without
replacement).  The spec's formula `int(hist*0.03) + int(remaining*0.05)` is the
special case `s = 0`; the counterexample shows a run with `s > 0` where the
stated count (and hence the ≈8% rate) fails. -/
theorem claim_C1_total_churn_count (O : ChurnOracle) {cs : List Customer}
    (h : (cs.map Customer.customer_id).Nodup) :
    (generate_churn_events O cs).length =
      (historical_churn_count (historical_customers cs).length -
        ((historical_churned O cs).filter fun c =>
          decide (recentCutoff - c.signup_date ≤ 30)).length) +
      recent_churn_count ((historical_customers cs).length -
        historical_churn_count (historical_customers cs).length) := by
  have hcs : cs.Nodup := List.Nodup.of_map _ h
  rw [generate_churn_events]
  rw [List.length_append, histChurnLoop_length, recentChurnLoop_length,
    recent_churned_length O hcs]
  have hsplit := length_filter_split
    (fun c => decide (30 < recentCutoff - c.signup_date)) (historical_churned O cs)
  have hcong : ((historical_churned O cs).filter fun c =>
      ! decide (30 < recentCutoff - c.signup_date)) =
      ((historical_churned O cs).filter fun c =>
        decide (recentCutoff - c.signup_date ≤ 30)) := by
    apply List.filter_congr
    intro x _
    rw [← decide_not]
    apply decide_eq_decide.mpr
    omega
  rw [hcong] at hsplit
  have hchlen := historical_churned_length O cs
  omega

/-- Claim C1, witness: the amended count at a concrete run over 100 distinct
customers all signed up on 2022-01-01 (no skips: the count is
`int(100*0.03) - 0 + int(97*0.05) = 3 + 4 = 7`). -/
theorem claim_C1_witness :
    (generate_churn_events zeroChurnOracle (flatCustomers 100)).length =
      (historical_churn_count (historical_customers (flatCustomers 100)).length -
        ((historical_churned zeroChurnOracle (flatCustomers 100)).filter fun c =>
          decide (recentCutoff - c.signup_date ≤ 30)).length) +
      recent_churn_count ((historical_customers (flatCustomers 100)).length -
        historical_churn_count (historical_customers (flatCustomers 100)).length) :=
  claim_C1_total_churn_count zeroChurnOracle (by decide)

/-- Claim C1, counterexample: a run of `generate_customers_data(10000)` in which
every signup draw lands on 2024-06-21 (ten days before the cutoff) is a possible
run with N=10000 and default parameters, yet every baseline-sampled customer is
skipped (tenure 10 ≤ 30): the generator emits 485 churn events while the claim's
formula `int(hist*0.03) + int(remaining*0.05)` gives 300 + 485 = 785, so the
claimed exact count (and the ≈8% overall rate — 485/10000 = 4.85%) fails. -/
theorem claim_C1_counterexample :
    (generate_churn_events zeroChurnOracle
        (generate_customers_data custOracleLate 10000)).length = 485 ∧
    (historical_churn_count
        (historical_customers (generate_customers_data custOracleLate 10000)).length +
      recent_churn_count
        ((historical_customers (generate_customers_data custOracleLate 10000)).length -
          historical_churn_count
            (historical_customers
              (generate_customers_data custOracleLate 10000)).length)) = 785 ∧
    (generate_churn_events zeroChurnOracle
        (generate_customers_data custOracleLate 10000)).length ≠
      (historical_churn_count
          (historical_customers (generate_customers_data custOracleLate 10000)).length +
        recent_churn_count
          ((historical_customers (generate_customers_data custOracleLate 10000)).length -
            historical_churn_count
              (historical_customers
                (generate_customers_data custOracleLate 10000)).length)) := by
  have hsign : ∀ c ∈ generate_customers_data custOracleLate 10000,
      c.signup_date = 902 := by
    intro c hc
    simp only [generate_customers_data, List.mem_map, List.mem_range] at hc
    obtain ⟨i, _, rfl⟩ := hc
    show startDate + pyRandint (custOracleLate.signupEnt i) 0 (globalEndDate - startDate) = 902
    norm_num [pyRandint, startDate, globalEndDate, custOracleLate]
  have hhist : historical_customers (generate_customers_data custOracleLate 10000) =
      generate_customers_data custOracleLate 10000 := by
    rw [historical_customers, List.filter_eq_self]
    intro c hc
    rw [hsign c hc]
    decide
  have hlen : (historical_customers (generate_customers_data custOracleLate 10000)).length
      = 10000 := by
    rw [hhist, generate_customers_length]
  have hc300 : historical_churn_count 10000 = 300 := by
    rw [historical_churn_count, pyInt_of_nonneg (by norm_num)]
    have hfl : ⌊((10000 : Nat) : ℚ) * 0.03⌋ = 300 := by
      rw [Int.floor_eq_iff]
      constructor <;> norm_num
    rw [hfl]
    rfl
  have hc485 : recent_churn_count 9700 = 485 := by
    rw [recent_churn_count, pyInt_of_nonneg (by norm_num)]
    have hfl : ⌊((9700 : Nat) : ℚ) * 0.05⌋ = 485 := by
      rw [Int.floor_eq_iff]
      constructor <;> norm_num
    rw [hfl]
    rfl
  have hnodup : (generate_customers_data custOracleLate 10000).Nodup :=
    List.Nodup.of_map _ (generate_customers_cid_nodup custOracleLate 10000)
  have hskip : ∀ c ∈ historical_churned zeroChurnOracle
      (generate_customers_data custOracleLate 10000),
      recentCutoff - c.signup_date ≤ 30 := by
    intro c hc
    have hmem := historical_customers_subset _ c
      ((historical_churned_subperm zeroChurnOracle _).subset hc)
    rw [hsign c hmem]
    decide
  have htotal : (generate_churn_events zeroChurnOracle
      (generate_customers_data custOracleLate 10000)).length = 485 := by
    rw [generate_churn_events]
    rw [histChurnLoop_eq_nil zeroChurnOracle 0 1 hskip]
    rw [List.length_append, recentChurnLoop_length, recent_churned_length _ hnodup,
      hlen, hc300]
    simp only [List.length_nil]
    rw [show 10000 - 300 = 9700 from rfl, hc485]
  refine ⟨htotal, ?_, ?_⟩
  · rw [hlen, hc300, show 10000 - 300 = 9700 from rfl, hc485]
  · rw [htotal, hlen, hc300, show 10000 - 300 = 9700 from rfl, hc485]
    omega

theorem custOracleLate_signup (n : Nat) :
    ∀ c ∈ generate_customers_data custOracleLate n, c.signup_date = 902 := by
  intro c hc
  simp only [generate_customers_data, List.mem_map, List.mem_range] at hc
  obtain ⟨i, _, rfl⟩ := hc
  show startDate + pyRandint (custOracleLate.signupEnt i) 0 (globalEndDate - startDate) = 902
  norm_num [pyRandint, startDate, globalEndDate, custOracleLate]

theorem custOracleLate_plan (n : Nat) :
    ∀ c ∈ generate_customers_data custOracleLate n, c.plan_type = PlanType.starter := by
  intro c hc
  simp only [generate_customers_data, List.mem_map, List.mem_range] at hc
  obtain ⟨i, _, rfl⟩ := hc
  rfl

/-- Claim C4 (amended): the full pipeline is a pure function of the random
stream, the parameters, and the wall-clock date `datetime.now()` consumed by
`generate_usage_events`; two runs with identical seed and parameters whose
current dates both lie on or after 2024-10-01 (when `min(2024-10-01, now)`
clamps) produce byte-identical record sets.  The counterexample shows two runs
with identical seed and parameters at different earlier wall-clock dates whose
usage-event sets differ. -/
theorem claim_C4_determinism (Oc : CustomersOracle) (Ou : UsageOracle)
    (Ot : TicketsOracle) (Oe : ChurnOracle) (n : Nat) {nowA nowB : Int}
    (hA : globalEndDate ≤ nowA) (hB : globalEndDate ≤ nowB) :
    fullPipeline Oc Ou Ot Oe nowA n = fullPipeline Oc Ou Ot Oe nowB n := by
  simp only [fullPipeline, generate_usage_events]
  rw [usageOuter_clamped Ou 50 hA, usageOuter_clamped Ou 50 hB]

/-- Claim C4, witness: two concrete runs on 2024-10-01 and on a later date
produce identical record sets. -/
theorem claim_C4_witness :
    fullPipeline custOracleLate usageOracle500 ticketsOracleTwo zeroChurnOracle 1004 1 =
      fullPipeline custOracleLate usageOracle500 ticketsOracleTwo zeroChurnOracle 2000 1 :=
  claim_C4_determinism custOracleLate usageOracle500 ticketsOracleTwo zeroChurnOracle 1
    (by norm_num [globalEndDate]) (by norm_num [globalEndDate])

/-- Claim C4, counterexample: with the same seed and parameters, a run whose
wall clock reads 2024-06-21 (the sole customer's signup day: zero active days,
no usage events) differs from a run on 2024-10-01 (35 usage events), so
identical seed and parameters alone do not make the record sets byte-identical:
`generate_usage_events` also reads `datetime.now()`. -/
theorem claim_C4_counterexample :
    (generate_usage_events usageOracle500
        ((generate_customers_data custOracleLate 1).take 2000) 50 902).length = 0 ∧
    (generate_usage_events usageOracle500
        ((generate_customers_data custOracleLate 1).take 2000) 50 1004).length = 35 ∧
    fullPipeline custOracleLate usageOracle500 ticketsOracleTwo zeroChurnOracle 902 1 ≠
      fullPipeline custOracleLate usageOracle500 ticketsOracleTwo zeroChurnOracle 1004 1 := by
  obtain ⟨c0, hc0⟩ := List.length_eq_one.mp (generate_customers_length custOracleLate 1)
  have hc0mem : c0 ∈ generate_customers_data custOracleLate 1 := by
    rw [hc0]
    exact List.mem_singleton_self c0
  have hsig : c0.signup_date = 902 := custOracleLate_signup 1 c0 hc0mem
  have hplan : c0.plan_type = PlanType.starter := custOracleLate_plan 1 c0 hc0mem
  have h35 : (pyInt (((50 : Nat) : ℚ) * plan_multiplier c0.plan_type *
      pyUniform (usageOracle500.cntR 0) 0.5 1.5)).toNat = 35 := by
    rw [hplan]
    have hq : ((50 : Nat) : ℚ) * plan_multiplier PlanType.starter *
        pyUniform (usageOracle500.cntR 0) 0.5 1.5 = 35 := by
      norm_num [plan_multiplier, pyUniform, usageOracle500]
    rw [hq, pyInt_of_nonneg (by norm_num)]
    have hfl : ⌊(35 : ℚ)⌋ = 35 := by
      rw [Int.floor_eq_iff]
      constructor <;> norm_num
    rw [hfl]
    rfl
  have husage1 : (generate_usage_events usageOracle500
      ((generate_customers_data custOracleLate 1).take 2000) 50 902).length = 0 := by
    rw [hc0, generate_usage_events]
    rw [show ([c0] : List Customer).take 2000 = [c0] from rfl]
    rw [show ([c0] : List Customer).enum = [(0, c0)] from rfl]
    rw [usageOuter_skip]
    · rfl
    · rw [hsig]
      norm_num [globalEndDate]
  have husage2 : (generate_usage_events usageOracle500
      ((generate_customers_data custOracleLate 1).take 2000) 50 1004).length = 35 := by
    rw [hc0, generate_usage_events]
    rw [show ([c0] : List Customer).take 2000 = [c0] from rfl]
    rw [show ([c0] : List Customer).enum = [(0, c0)] from rfl]
    simp only [usageOuter]
    have hd : min globalEndDate (1004 : Int) - c0.signup_date = 102 := by
      rw [hsig]
      norm_num [globalEndDate]
    rw [hd]
    rw [if_neg (by norm_num)]
    rw [List.length_append, usageInner_length, List.length_range, h35]
    rfl
  refine ⟨husage1, husage2, ?_⟩
  intro heq
  have hproj := congrArg (fun r =>
    (r : List Customer × List UsageEvent × List SupportTicket × List ChurnEvent).2.1.length)
    heq
  simp only [fullPipeline] at hproj
  rw [husage1, husage2] at hproj
  exact absurd hproj (by norm_num)

/-! ### Lemmas about the stream-response parser -/

theorem parseChunkStep_eq (env : PyEnv) (acc : List PyVal × List PyVal) (c : String) :
    parseChunkStep env acc c =
      (acc.1 ++ specTextContribution env c, acc.2 ++ specErrorContribution env c) := by
  rw [parseChunkStep, specTextContribution, specErrorContribution]
  cases h : env.loads c with
  | none =>
    by_cases hc : c ≠ "" ∧ ¬ startsWithBrace c
    · rw [if_pos hc, if_pos hc]
      simp
    · rw [if_neg hc, if_neg hc]
      simp
  | some v =>
    cases v with
    | pdict d =>
      by_cases ht : isTextChunk d
      · simp [ht]
      · by_cases hco : pyHasKey d "content"
        · simp [ht, hco]
        · by_cases hm : pyHasKey d "message"
          · simp [ht, hco, hm]
          · simp [ht, hco, hm]
    | pnull => simp
    | pbool b => simp
    | pnum q => simp
    | pstr s => simp
    | plist l => simp

theorem parse_foldl_flat (env : PyEnv) :
    ∀ (chunks : List String) (p e : List PyVal),
      chunks.foldl (parseChunkStep env) (p, e) =
        (p ++ chunks.flatMap (specTextContribution env),
          e ++ chunks.flatMap (specErrorContribution env)) := by
  intro chunks
  induction chunks with
  | nil => intro p e; simp
  | cons c rest ih =>
    intro p e
    rw [List.foldl_cons, parseChunkStep_eq, ih]
    simp

theorem pyJoin_isSome {l : List PyVal} (h : ∀ v ∈ l, ∃ s, v = PyVal.pstr s) :
    ∃ s, pyJoin l = some s := by
  induction l with
  | nil => exact ⟨"", rfl⟩
  | cons v rest ih =>
    obtain ⟨s, rfl⟩ := h v (List.mem_cons_self _ _)
    obtain ⟨t, ht⟩ := ih fun w hw => h w (List.mem_cons_of_mem _ hw)
    exact ⟨s ++ t, by rw [pyJoin, ht]; rfl⟩

theorem specTextContribution_strings (env : PyEnv) (c : String)
    (h : chunkTextIsString env c) :
    ∀ v ∈ specTextContribution env c, ∃ s, v = PyVal.pstr s := by
  intro v hv
  rw [specTextContribution] at hv
  rw [chunkTextIsString] at h
  cases hl : env.loads c with
  | none =>
    simp only [hl] at hv
    by_cases hc : c ≠ "" ∧ ¬ startsWithBrace c
    · rw [if_pos hc] at hv
      simp only [List.mem_singleton] at hv
      exact ⟨c, hv⟩
    · rw [if_neg hc] at hv
      simp at hv
  | some w =>
    cases w with
    | pdict d =>
      simp only [hl] at hv h
      by_cases ht : isTextChunk d
      · rw [if_pos ht] at hv
        simp only [List.mem_singleton] at hv
        obtain ⟨s, hs⟩ := h ht
        exact ⟨s, hv ▸ hs⟩
      · rw [if_neg ht] at hv
        by_cases hco : pyHasKey d "content"
        · rw [if_pos hco] at hv
          simp only [List.mem_singleton] at hv
          exact ⟨_, hv⟩
        · rw [if_neg hco] at hv
          simp at hv
    | pnull => simp only [hl, List.mem_singleton] at hv; exact ⟨_, hv⟩
    | pbool b => simp only [hl, List.mem_singleton] at hv; exact ⟨_, hv⟩
    | pnum q => simp only [hl, List.mem_singleton] at hv; exact ⟨_, hv⟩
    | pstr s => simp only [hl, List.mem_singleton] at hv; exact ⟨_, hv⟩
    | plist l => simp only [hl, List.mem_singleton] at hv; exact ⟨_, hv⟩

/-- Claim C9 (amended): the chunk parser is total as a dispatch — its response
text is the in-order concatenation of per-chunk contributions in which a
non-JSON fragment is kept as raw text exactly when it is non-empty and does not
start with a brace (brace-prefixed undecodable fragments are silently dropped),
and its error list collects the `message` value of exactly those JSON-object
chunks that are not type-`text` and have no `content` key but have a `message`
key.  The call itself never raises provided every type-`text` chunk carries a
string `text` field; otherwise the final `"".join` raises `TypeError` (the
counterexample exhibits both the dropped fragment, an uncollected
`message`-bearing chunk, and the raise). -/
theorem claim_C9_stream_parsing (env : PyEnv) (chunks : List String)
    (h : ∀ c ∈ chunks, chunkTextIsString env c) :
    parse_agent_stream_response env chunks =
      (pyJoin (chunks.flatMap (specTextContribution env))).map
        (fun s => (s, chunks.flatMap (specErrorContribution env))) ∧
    ∃ s, parse_agent_stream_response env chunks =
      some (s, chunks.flatMap (specErrorContribution env)) := by
  have hchar : parse_agent_stream_response env chunks =
      (pyJoin (chunks.flatMap (specTextContribution env))).map
        (fun s => (s, chunks.flatMap (specErrorContribution env))) := by
    rw [parse_agent_stream_response, parse_foldl_flat env chunks [] []]
    simp
  refine ⟨hchar, ?_⟩
  have hall : ∀ v ∈ chunks.flatMap (specTextContribution env), ∃ s, v = PyVal.pstr s := by
    intro v hv
    obtain ⟨c, hc, hvc⟩ := List.mem_flatMap.mp hv
    exact specTextContribution_strings env c (h c hc) v hvc
  obtain ⟨s, hs⟩ := pyJoin_isSome hall
  exact ⟨s, by rw [hchar, hs]; rfl⟩

/-- Claim C9, witness: the amended characterization instantiated at a concrete
environment in which the single chunk fails to decode (and so is kept as raw
text, with no errors collected and no exception). -/
theorem claim_C9_witness :
    parse_agent_stream_response envNone ["abc"] =
      (pyJoin (["abc"].flatMap (specTextContribution envNone))).map
        (fun s => (s, ["abc"].flatMap (specErrorContribution envNone))) ∧
    ∃ s, parse_agent_stream_response envNone ["abc"] =
      some (s, ["abc"].flatMap (specErrorContribution envNone)) :=
  claim_C9_stream_parsing envNone ["abc"] fun _ _ => trivial

/-- Claim C9, counterexample: (a) on the chunk list consisting of the non-JSON
fragment `"\x7boops"` followed by a JSON chunk bearing both `"type": "text"`
and a `"message"` key, the parser returns `("hi", [])` — the raw fragment is
NOT appended to the response text (it starts with a brace and is silently
dropped) and the `message`-bearing chunk is NOT collected into the error list
(the `type == "text"` branch wins); (b) on a type-`text` chunk whose `text`
value is the number 5, the parser raises (`"".join` meets a non-string), so it
does not hold that it never raises on any chunk list. -/
theorem claim_C9_counterexample :
    parse_agent_stream_response envC9
        ["\x7boops", "\x7b\"type\": \"text\", \"text\": \"hi\", \"message\": \"err\"\x7d"] =
      some ("hi", []) ∧
    parse_agent_stream_response envC9 ["\x7b\"type\": \"text\", \"text\": 5\x7d"] = none := by
  constructor <;> rfl

/-! ### Lemmas about the supervisor/agent graph -/

theorem content_agent_node_fields (O : GraphOracle) (s : GState) :
    (content_agent_node O s).1.current_step = s.current_step + 1 ∧
    (content_agent_node O s).1.plan = s.plan ∧
    (content_agent_node O s).1.planning_complete = s.planning_complete ∧
    (content_agent_node O s).2 = Goto.node "supervisor" := by
  cases h : O.contentResult s.current_step <;> simp [content_agent_node, h]

theorem stream_agent_node_fields (name tag : String)
    (chunksOf : Nat → Except String (List String)) (env : PyEnv) (s : GState) :
    (stream_agent_node name tag chunksOf env s).1.current_step = s.current_step + 1 ∧
    (stream_agent_node name tag chunksOf env s).1.plan = s.plan ∧
    (stream_agent_node name tag chunksOf env s).1.planning_complete = s.planning_complete ∧
    (stream_agent_node name tag chunksOf env s).2 = Goto.node "supervisor" := by
  rw [stream_agent_node]
  cases h : chunksOf s.current_step with
  | error e => simp
  | ok chunks =>
    cases hp : parse_agent_stream_response env chunks with
    | none => simp [hp]
    | some pr =>
      obtain ⟨rc, se⟩ := pr
      simp [hp]

theorem data_analyst_agent_node_fields (O : GraphOracle) (s : GState) :
    (data_analyst_agent_node O s).1.current_step = s.current_step + 1 ∧
    (data_analyst_agent_node O s).1.plan = s.plan ∧
    (data_analyst_agent_node O s).1.planning_complete = s.planning_complete ∧
    (data_analyst_agent_node O s).2 = Goto.node "supervisor" :=
  stream_agent_node_fields "DATA_ANALYST_AGENT" "DATA_ANALYST" O.analystChunks O.env s

theorem research_agent_node_fields (O : GraphOracle) (s : GState) :
    (research_agent_node O s).1.current_step = s.current_step + 1 ∧
    (research_agent_node O s).1.plan = s.plan ∧
    (research_agent_node O s).1.planning_complete = s.planning_complete ∧
    (research_agent_node O s).2 = Goto.node "supervisor" :=
  stream_agent_node_fields "RESEARCH_AGENT" "RESEARCH" O.researchChunks O.env s

theorem synthesisMode_fields (O : GraphOracle) (s : GState) :
    (synthesisMode O s).1.current_step = s.current_step ∧
    (synthesisMode O s).1.plan = s.plan ∧
    (synthesisMode O s).1.planning_complete = s.planning_complete ∧
    (synthesisMode O s).2 = Goto.end_ := by
  cases h : O.synthResult <;> simp [synthesisMode, h]

theorem supervisor_routing (O : GraphOracle) {s : GState} {st : PlanStep} {a : String}
    (hhp : has_plan s = true) (hincomp : is_plan_complete s = false)
    (hstep : get_current_step s = some st) (ha : st.agent = some a)
    (hmem : a ∈ AGENT_NAMES) : supervisor_node O s = (s, Goto.node a) := by
  rw [supervisor_node, if_neg (by simp [hhp]), if_pos hincomp]
  simp only [hstep, ha]
  rw [if_pos hmem]

theorem supervisor_synthesis (O : GraphOracle) {s : GState}
    (hhp : has_plan s = true) (hcomp : is_plan_complete s = true) :
    supervisor_node O s = synthesisMode O s := by
  simp only [supervisor_node, hhp, hcomp]
  simp

theorem supervisor_current_step (O : GraphOracle) (s : GState)
    (hhp : has_plan s = true) :
    (supervisor_node O s).1.current_step = s.current_step := by
  rw [supervisor_node, if_neg (by simp [hhp])]
  split
  · split
    · split
      · split
        · rfl
        · exact (synthesisMode_fields O s).1
      · exact (synthesisMode_fields O s).1
    · exact (synthesisMode_fields O s).1
  · exact (synthesisMode_fields O s).1

theorem runLoop_executes (O : GraphOracle) :
    ∀ (k : Nat) (s : GState) (p : Plan),
      s.plan = some p → s.planning_complete = true →
      p.steps.length - s.current_step = k → s.current_step ≤ p.steps.length →
      (∀ st ∈ p.steps, ∃ a, st.agent = some a ∧ a ∈ AGENT_NAMES) →
      ∃ fin, runLoop O (k + 1) s = some (fin, k) ∧
        fin.current_step = p.steps.length ∧ is_plan_complete fin = true := by
  intro k
  induction k with
  | zero =>
    intro s p hp hpc hk hle hvalid
    have hcur : s.current_step = p.steps.length := by omega
    have hhp : has_plan s = true := by simp [has_plan, hp, hpc]
    have hcomp : is_plan_complete s = true := by
      simp only [is_plan_complete, hp, decide_eq_true_eq]
      omega
    have hsyn := synthesisMode_fields O s
    simp only [runLoop]
    rw [supervisor_synthesis O hhp hcomp]
    cases hsm : synthesisMode O s with
    | mk s1 g =>
      rw [hsm] at hsyn
      have hg : g = Goto.end_ := hsyn.2.2.2
      subst hg
      have h1 : s1.current_step = s.current_step := hsyn.1
      have h2 : s1.plan = s.plan := hsyn.2.1
      refine ⟨s1, rfl, ?_, ?_⟩
      · rw [h1]
        exact hcur
      · simp only [is_plan_complete, h2, hp, decide_eq_true_eq]
        omega
  | succ k ih =>
    intro s p hp hpc hk hle hvalid
    have hcur : s.current_step < p.steps.length := by omega
    have hhp : has_plan s = true := by simp [has_plan, hp, hpc]
    have hincomp : is_plan_complete s = false := by
      simp only [is_plan_complete, hp, decide_eq_false_iff_not]
      omega
    have hstep : get_current_step s = some (p.steps.get ⟨s.current_step, hcur⟩) := by
      simp [get_current_step, hp, List.get?_eq_getElem?, List.getElem?_eq_getElem hcur]
    have hstmem := List.get_mem p.steps s.current_step hcur
    obtain ⟨a, ha, hmem⟩ := hvalid _ hstmem
    have hsup := supervisor_routing O hhp hincomp hstep ha hmem
    have hmem3 : a = "CONTENT_AGENT" ∨ a = "DATA_ANALYST_AGENT" ∨ a = "RESEARCH_AGENT" := by
      simpa [AGENT_NAMES] using hmem
    rcases hmem3 with rfl | rfl | rfl
    · have hf := content_agent_node_fields O s
      obtain ⟨fin, hrun, hfc, hfcomp⟩ := ih (content_agent_node O s).1 p
        (by rw [hf.2.1, hp]) (by rw [hf.2.2.1, hpc]) (by rw [hf.1]; omega)
        (by rw [hf.1]; omega) hvalid
      refine ⟨fin, ?_, hfc, hfcomp⟩
      simp only [runLoop]
      rw [hsup]
      show (runLoop O (k + 1) (content_agent_node O s).1).map (fun r => (r.1, r.2 + 1)) =
        some (fin, k + 1)
      rw [hrun]
      rfl
    · have hf := data_analyst_agent_node_fields O s
      obtain ⟨fin, hrun, hfc, hfcomp⟩ := ih (data_analyst_agent_node O s).1 p
        (by rw [hf.2.1, hp]) (by rw [hf.2.2.1, hpc]) (by rw [hf.1]; omega)
        (by rw [hf.1]; omega) hvalid
      refine ⟨fin, ?_, hfc, hfcomp⟩
      simp only [runLoop]
      rw [hsup]
      show (runLoop O (k + 1) (data_analyst_agent_node O s).1).map (fun r => (r.1, r.2 + 1)) =
        some (fin, k + 1)
      rw [hrun]
      rfl
    · have hf := research_agent_node_fields O s
      obtain ⟨fin, hrun, hfc, hfcomp⟩ := ih (research_agent_node O s).1 p
        (by rw [hf.2.1, hp]) (by rw [hf.2.2.1, hpc]) (by rw [hf.1]; omega)
        (by rw [hf.1]; omega) hvalid
      refine ⟨fin, ?_, hfc, hfcomp⟩
      simp only [runLoop]
      rw [hsup]
      show (runLoop O (k + 1) (research_agent_node O s).1).map (fun r => (r.1, r.2 + 1)) =
        some (fin, k + 1)
      rw [hrun]
      rfl

/-- Claim C10 (amended): each agent node advances `current_step` by exactly one
and hands control back to the supervisor whether its agent call succeeds or
raises; a supervisor holding a plan never changes `current_step` (so the step
counter is non-decreasing through the loop); and from a post-planning state at
step 0 whose every plan step names an agent in `AGENT_NAMES`, the loop
terminates after exactly `len(plan.steps)` agent invocations with
`is_plan_complete` true, the supervisor entering synthesis and routing to
`__end__`.  (For a step naming an unknown agent the supervisor falls through to
synthesis early — the loop still terminates, but with fewer invocations and an
incomplete plan, as the counterexample shows.) -/
theorem claim_C10_loop_termination (O : GraphOracle) :
    (∀ s : GState,
      (content_agent_node O s).1.current_step = s.current_step + 1 ∧
      (data_analyst_agent_node O s).1.current_step = s.current_step + 1 ∧
      (research_agent_node O s).1.current_step = s.current_step + 1 ∧
      (content_agent_node O s).2 = Goto.node "supervisor" ∧
      (data_analyst_agent_node O s).2 = Goto.node "supervisor" ∧
      (research_agent_node O s).2 = Goto.node "supervisor") ∧
    (∀ s : GState, has_plan s = true →
      (supervisor_node O s).1.current_step = s.current_step) ∧
    (∀ (s : GState) (p : Plan), s.plan = some p → s.planning_complete = true →
      s.current_step = 0 →
      (∀ st ∈ p.steps, ∃ a, st.agent = some a ∧ a ∈ AGENT_NAMES) →
      ∃ fin, runLoop O (p.steps.length + 1) s = some (fin, p.steps.length) ∧
        fin.current_step = p.steps.length ∧ is_plan_complete fin = true) := by
  refine ⟨?_, ?_, ?_⟩
  · intro s
    exact ⟨(content_agent_node_fields O s).1, (data_analyst_agent_node_fields O s).1,
      (research_agent_node_fields O s).1, (content_agent_node_fields O s).2.2.2,
      (data_analyst_agent_node_fields O s).2.2.2, (research_agent_node_fields O s).2.2.2⟩
  · exact fun s h => supervisor_current_step O s h
  · intro s p hp hpc hc0 hvalid
    exact runLoop_executes O p.steps.length s p hp hpc (by omega) (by omega) hvalid

/-- Claim C10, witness: with a two-step plan (content agent succeeds, research
agent raises) the loop makes exactly two agent invocations and ends with the
plan complete. -/
theorem claim_C10_witness :
    ∃ fin, runLoop graphOracleA (planTwo.steps.length + 1) (stateOf planTwo) =
        some (fin, planTwo.steps.length) ∧
      fin.current_step = planTwo.steps.length ∧ is_plan_complete fin = true :=
  (claim_C10_loop_termination graphOracleA).2.2 (stateOf planTwo) planTwo rfl rfl rfl
    (by
      intro st hst
      simp only [planTwo, List.mem_cons, List.mem_singleton] at hst
      rcases hst with rfl | rfl | h
      · exact ⟨"CONTENT_AGENT", rfl, by decide⟩
      · exact ⟨"RESEARCH_AGENT", rfl, by decide⟩
      · simp at h)

/-- Claim C10, counterexample: with the one-step plan whose step names the
unknown agent `"BOGUS"`, the run terminates after ZERO agent invocations (the
supervisor falls through to synthesis and routes to `__end__`) and
`is_plan_complete` is still false at the end — so it is not the case that every
finite plan is completed after exactly `len(plan.steps)` agent invocations with
`is_plan_complete` true. -/
theorem claim_C10_counterexample :
    (runLoop graphOracleA 2 (stateOf planBogus)).map (fun r => r.2) = some 0 ∧
    (runLoop graphOracleA 2 (stateOf planBogus)).map (fun r => is_plan_complete r.1) =
      some false ∧
    planBogus.steps.length = 1 := by
  refine ⟨?_, ?_, rfl⟩ <;> rfl
